import Mathlib

/-!
# Verification of the AI-Sales-Orchestrator agent orchestration engine

Shallow embedding of the orchestration core of the repository
(`backend/graph/orchestrator_graph.py`, `backend/graph/state.py`,
`backend/agents/*.py`) and proofs about the spec's claims.

Modelling conventions:
* Python dicts become association lists over a `Value` type (`StateDict`);
  `dict.update` / `dict[k] = v` become `dictUpdate` / `setKey`, and lookup
  becomes `sGet` (first match; all dicts built here have unique keys).
* The per-run `AgentState` dict is built by `createInitialState`, mirroring
  `state.py`.
* `asyncio.gather` fan-out in `call_agents_node` is embedded twice: `runAll`
  sequentialises it in task-creation order (faithful for the returned results
  and the merge loop), while `runAllAsync` models the single-threaded event
  loop's actual interleaving — tasks start in creation order, only a true
  suspension point yields (in this program, the payment agent awaiting
  `asyncio.sleep` in its retry loop), and a suspended task's terminal
  `agent_calls[-1]` update therefore lands on the globally last audit entry.
  Each agent's `_execute` outcome is an `Except String Value` input so that
  agent exceptions are expressible.
* Wall-clock fields (`time.time()` timestamps, `execution_time`) on audit-log
  entries are not modelled; the retry history's event-loop timestamps are taken
  from an injected `times : Nat → ℚ` stream, and `random.random()` draws from
  an injected `draws : Nat → ℚ` stream (with draws in `[0,1)` where relevant).
* Python floats become `ℚ`; `f"{x:.0f}"` becomes rounding to `ℤ`.
* Text rendering of values inside f-strings is `pyStr`; only strings and
  integral numbers are ever rendered on the paths the claims exercise.
-/

/-- Python-like dynamic values stored in the shared state dict. -/
inductive Value where
  | vNone : Value
  | vStr : String → Value
  | vNum : ℚ → Value
  | vBool : Bool → Value
  | vList : List Value → Value
  | vDict : List (String × Value) → Value

/-- Python truthiness (`if x:`) for the values we model. -/
def truthy : Value → Bool
  | .vNone => false
  | .vStr s => !(s = "")
  | .vNum q => !(q = 0)
  | .vBool b => b
  | .vList l => !l.isEmpty
  | .vDict d => !d.isEmpty

/-- Truthiness of `state.get(k)` (missing key is `None`, hence falsy). -/
def truthyOpt : Option Value → Bool
  | some v => truthy v
  | none => false

/-- A Python dict as an association list (unique keys by construction). -/
abbrev StateDict := List (String × Value)

/-- First-match lookup, `d[k]` / `d.get(k)`. -/
def sGet (st : StateDict) (k : String) : Option Value :=
  match st with
  | [] => none
  | (k', v) :: rest => if k' = k then some v else sGet rest k

/-- `d[k] = v`: replace the first binding of `k`, or append a new one. -/
def setKey (st : StateDict) (k : String) (v : Value) : StateDict :=
  match st with
  | [] => [(k, v)]
  | (k', v') :: rest => if k' = k then (k, v) :: rest else (k', v') :: setKey rest k v

/-- `d.update(other)`: apply `setKey` for each binding of `other` in order. -/
def dictUpdate (st : StateDict) (kvs : List (String × Value)) : StateDict :=
  kvs.foldl (fun s kv => setKey s kv.1 kv.2) st

/-- `.get(k, default)` on a dict value (non-dict receivers never occur on the
paths the claims exercise). -/
def vGetD (v : Value) (k : String) (dflt : Value) : Value :=
  match v with
  | .vDict d => match sGet d k with | some w => w | none => dflt
  | _ => dflt

/-- `v[k]` on a dict value; a missing key is Python's `KeyError`. -/
def itemGet (v : Value) (k : String) : Except String Value :=
  match v with
  | .vDict d => match sGet d k with | some w => Except.ok w | none => Except.error ("KeyError: " ++ k)
  | _ => Except.error "TypeError: not a dict"

@[simp] theorem sGet_setKey_self (st : StateDict) (k : String) (v : Value) :
    sGet (setKey st k v) k = some v := by
  induction st with
  | nil => simp [setKey, sGet]
  | cons kv rest ih =>
    obtain ⟨k', v'⟩ := kv
    by_cases h : k' = k <;> simp [setKey, sGet, h, ih]

theorem sGet_setKey_ne (st : StateDict) {k k' : String} (v : Value) (h : k' ≠ k) :
    sGet (setKey st k' v) k = sGet st k := by
  induction st with
  | nil => simp [setKey, sGet, h]
  | cons kv rest ih =>
    obtain ⟨k'', v''⟩ := kv
    by_cases h2 : k'' = k'
    · subst h2; simp [setKey, sGet, h]
    · simp [setKey, h2]
      by_cases h3 : k'' = k <;> simp [sGet, h3, ih]

theorem setKey_setKey (st : StateDict) (k : String) (v w : Value) :
    setKey (setKey st k v) k w = setKey st k w := by
  induction st with
  | nil => simp [setKey]
  | cons kv rest ih =>
    obtain ⟨k', v'⟩ := kv
    by_cases h : k' = k <;> simp [setKey, h, ih]

-- ===========================================================================
-- Strings: lower-casing and Python's substring test `needle in hay`
-- ===========================================================================

/-- `str.lower()` (source requests are ASCII; `Char.toLower` matches there). -/
def lowerStr (s : String) : String := String.mk (s.data.map Char.toLower)

/-- Substring occurrence over character lists. -/
def containsSub (hay needle : List Char) : Bool :=
  if needle.isPrefixOf hay then true
  else match hay with
    | [] => false
    | _ :: t => containsSub t needle

/-- Python `needle in hay` on strings. -/
def strContains (hay needle : String) : Bool :=
  containsSub hay.toList needle.toList

/-- `any(word in request for word in words)`. -/
def anyKeyword (request : String) (words : List String) : Bool :=
  words.any (fun w => strContains request w)

-- ===========================================================================
-- Cart entries (shopping context of the shared state)
-- ===========================================================================

/-- One cart entry `{product_id, quantity, size}`; `quantity`/`size` may be
absent, matching the source's `.get("quantity", 1)` / `.get("size", "40")`. -/
structure CartItem where
  product_id : String
  quantity : Option Nat
  size : Option String
deriving DecidableEq

def CartItem.qty (c : CartItem) : Nat := c.quantity.getD 1

def CartItem.toDict (c : CartItem) : Value :=
  .vDict ([("product_id", .vStr c.product_id)]
    ++ (match c.quantity with | some q => [("quantity", Value.vNum q)] | none => [])
    ++ (match c.size with | some s => [("size", Value.vStr s)] | none => []))

-- ===========================================================================
-- Intent classifier (`orchestrator_node`, orchestrator_graph.py lines 38-67)
-- ===========================================================================

def recommendationWords : List String := ["recommend", "suggest", "show", "match", "pair", "goes with"]
def inventoryWords : List String := ["stock", "available", "store", "nearby", "reserve"]
def paymentWords : List String := ["pay", "payment", "checkout", "buy", "purchase"]
def fulfillmentWords : List String := ["deliver", "shipping", "delivery", "when will"]
def loyaltyWords : List String := ["discount", "offer", "points", "loyalty", "coupon"]
def supportWords : List String := ["return", "refund", "exchange", "problem", "issue", "help"]

/-- The six keyword groups in source order, paired with their agent ids. -/
def keywordGroups : List (String × List String) :=
  [("recommendation", recommendationWords),
   ("inventory", inventoryWords),
   ("payment", paymentWords),
   ("fulfillment", fulfillmentWords),
   ("loyalty", loyaltyWords),
   ("support", supportWords)]

/-- The sequential selection logic of `orchestrator_node`, parametrised by the
six keyword-match booleans and the cart/liked-products flag, mirroring the
source's append order exactly. -/
def selectCore (mRec mInv mPay mFul mLoy mSup cartOrLiked : Bool) : List String :=
  let l0 : List String := []
  let l1 := if mRec then l0 ++ ["recommendation"] else l0
  let l2 := if mInv then l1 ++ ["inventory"] else l1
  let l3 := if mPay then l2 ++ ["payment"] else l2
  let l4 := if mFul then l3 ++ ["fulfillment"] else l3
  let l5 := if mLoy then l4 ++ ["loyalty"] else l4
  let l6 := if mSup then l5 ++ ["support"] else l5
  let l7 := if cartOrLiked && !(l6.contains "recommendation") then l6 ++ ["recommendation"] else l6
  if !(l7.contains "loyalty") && l7.length > 0 then l7 ++ ["loyalty"] else l7

/-- `orchestrator_node`'s intent detection: which agents a request needs.
The cart is the typed view of the state's cart entries (only its emptiness
matters here, per `state.get("cart")` truthiness). -/
def agentsNeeded (request : String) (cart : List CartItem) (likedProducts : List String) : List String :=
  let r := lowerStr request
  selectCore (anyKeyword r recommendationWords) (anyKeyword r inventoryWords)
    (anyKeyword r paymentWords) (anyKeyword r fulfillmentWords)
    (anyKeyword r loyaltyWords) (anyKeyword r supportWords)
    (!cart.isEmpty || !likedProducts.isEmpty)

/-- Agent ids of the keyword groups matched by a (lowered) request. -/
def matchedIds (lreq : String) : List String :=
  (keywordGroups.filter (fun g => anyKeyword lreq g.2)).map (·.1)

example : agentsNeeded "Recommend a shirt" [] [] = ["recommendation", "loyalty"] := by decide
example : agentsNeeded "hello there" [] [] = [] := by decide
example : agentsNeeded "buy shoes" [] [] = ["payment", "loyalty"] := by decide

-- ===========================================================================
-- Shared data model used by the agents
-- ===========================================================================

/-- A catalog row as loaded by `RecommendationAgent._load_products`. -/
structure Product where
  product_id : String
  name : String
  brand : String
  price : ℚ
  category : String
  tags : List String
  match_score : ℚ
deriving DecidableEq

def Product.toDict (p : Product) : List (String × Value) :=
  [("product_id", .vStr p.product_id), ("name", .vStr p.name), ("brand", .vStr p.brand),
   ("price", .vNum p.price), ("category", .vStr p.category),
   ("tags", .vList (p.tags.map Value.vStr)), ("match_score", .vNum p.match_score)]

/-- A store row as loaded by `InventoryAgent._load_stores`. -/
structure Store where
  store_id : String
  name : String
  location : String
  distance : String
deriving DecidableEq

/-- A customer row as loaded by `LoyaltyAgent._load_customers`. -/
structure Customer where
  customer_id : String
  name : String
  loyalty_points : Nat
  tier : String
deriving DecidableEq

/-- Rendering of a value inside a Python f-string (`str(x)`); only strings and
integral numbers are rendered on the claims' paths. -/
def pyStr : Value → String
  | .vNone => "None"
  | .vStr s => s
  | .vBool b => if b then "True" else "False"
  | .vNum q => if q.den = 1 then toString q.num else toString q.num ++ "/" ++ toString q.den
  | .vList _ => "[...]"
  | .vDict _ => "{...}"

/-- `f"{x:.0f}"`: round to an integer and render. -/
def fmt0 (q : ℚ) : String := toString (round q)

-- ===========================================================================
-- Payment agent (`payment_agent.py`)
-- ===========================================================================

/-- One payment gateway from `PaymentAgent.__init__`. -/
structure Gateway where
  name : String
  success_rate : ℚ
  timeout : ℚ
deriving DecidableEq

/-- The configured gateway list (`payment_agent.py` lines 18-22). -/
def paymentGateways : List Gateway :=
  [⟨"Razorpay", 3/10, 12/10⟩, ⟨"PayU", 3/10, 8/10⟩, ⟨"UPI Direct", 1, 7/10⟩]

/-- `_attempt_payment`: the draw `random.random() < gateway["success_rate"]`,
with the random value injected as `r`. -/
def attemptPayment (g : Gateway) (r : ℚ) : Bool := r < g.success_rate

/-- One `retry_history` entry. -/
structure RetryEntry where
  gateway : String
  status : String
  timestamp : ℚ
deriving DecidableEq

/-- Result record of `_process_payment_with_retry`; `total_time` holds the
numeric sum the source formats as a string. -/
structure PaymentResult where
  success : Bool
  status : String
  amount : ℚ
  gateway : Option String
  transaction_id : Option Nat
  retry_history : List RetryEntry
  total_time : Option ℚ
  message : String

/-- The gateway loop of `_process_payment_with_retry`: `all` is the full
configured list (used for `total_time`), `rest` the gateways not yet tried,
`i` the index of the next attempt into the `draws`/`times` streams, and `acc`
the history so far. -/
def processAux (all : List Gateway) (amount : ℚ) (txn : Nat) (draws times : Nat → ℚ) :
    List Gateway → Nat → List RetryEntry → PaymentResult
  | [], _, acc =>
    { success := false, status := "failed", amount := amount, gateway := none,
      transaction_id := none, retry_history := acc, total_time := none,
      message := "All payment methods failed. Please try again later." }
  | g :: rest, i, acc =>
    let ok := attemptPayment g (draws i)
    let acc' := acc ++ [⟨g.name, if ok then "success" else "failed", times i⟩]
    if ok then
      { success := true, status := "completed", amount := amount, gateway := some g.name,
        transaction_id := some txn, retry_history := acc',
        total_time := some (((all.take acc'.length).map (·.timeout)).sum),
        message := "Payment successful via " ++ g.name ++ "!" }
    else processAux all amount txn draws times rest (i + 1) acc'

/-- `_process_payment_with_retry` over a gateway list, with injected
randomness (`draws`), event-loop clock (`times`) and transaction id. -/
def processPaymentWithRetry (gws : List Gateway) (amount : ℚ) (txn : Nat)
    (draws times : Nat → ℚ) : PaymentResult :=
  processAux gws amount txn draws times gws 0 []

def RetryEntry.toDict (e : RetryEntry) : Value :=
  .vDict [("gateway", .vStr e.gateway), ("status", .vStr e.status), ("timestamp", .vNum e.timestamp)]

/-- The result dict literals of `_process_payment_with_retry` (lines 63-73 on
success, 76-82 when all gateways failed). -/
def PaymentResult.toDict (r : PaymentResult) : Value :=
  if r.success then
    .vDict [("success", .vBool true), ("status", .vStr r.status), ("amount", .vNum r.amount),
      ("gateway", .vStr (r.gateway.getD "")), ("transaction_id", .vStr ("TXN" ++ toString (r.transaction_id.getD 0))),
      ("retry_history", .vList (r.retry_history.map RetryEntry.toDict)),
      ("total_time", .vStr (fmt0 (r.total_time.getD 0) ++ "s")),
      ("message", .vStr r.message)]
  else
    .vDict [("success", .vBool false), ("status", .vStr r.status), ("amount", .vNum r.amount),
      ("retry_history", .vList (r.retry_history.map RetryEntry.toDict)),
      ("message", .vStr r.message)]

/-- `PaymentAgent._calculate_total`. -/
def calculateTotal (cart : List CartItem) : ℚ :=
  if cart.isEmpty then 3950
  else (cart.map (fun item => (2500 : ℚ) * item.qty)).sum

/-- `PaymentAgent._execute`. -/
def paymentExecute (request : String) (cart : List CartItem) (txn : Nat)
    (draws times : Nat → ℚ) : Value :=
  let r := lowerStr request
  let totalAmount := calculateTotal cart
  if strContains r "pay" || strContains r "checkout" || strContains r "purchase" then
    (processPaymentWithRetry paymentGateways totalAmount txn draws times).toDict
  else
    .vDict [("status", .vStr "pending"), ("amount", .vNum totalAmount),
      ("message", .vStr "Ready to process payment")]

-- ===========================================================================
-- Recommendation agent (`recommendation_agent.py`)
-- ===========================================================================

/-- Fallback mock catalog of `RecommendationAgent._load_products`. -/
def mockProducts : List Product :=
  [⟨"VH001", "Classic Blue Formal Shirt", "Van Heusen", 2500, "Formal Shirts", ["wedding", "formal", "office"], 95/100⟩,
   ⟨"VH002", "Navy Blue Silk Tie", "Van Heusen", 800, "Ties", ["formal", "wedding"], 85/100⟩,
   ⟨"VH003", "Brown Leather Belt", "Van Heusen", 1200, "Belts", ["formal", "casual"], 78/100⟩]

/-- Stable insertion of one product into a match-score-descending list: the
inserted (earlier) element goes before the first element whose score does not
exceed it, so equal-score elements keep their original relative order,
matching Python's stable `sorted(..., reverse=True)`. -/
def insertByScoreDesc (p : Product) : List Product → List Product
  | [] => [p]
  | q :: t => if q.match_score ≤ p.match_score then p :: q :: t else q :: insertByScoreDesc p t

/-- `_get_trending_products`: `sorted(products, key=match_score, reverse=True)`. -/
def getTrendingProducts (products : List Product) : List Product :=
  products.foldr insertByScoreDesc []

/-- `_get_matching_products`. -/
def getMatchingProducts (products : List Product) (likedProductIds : List String) : List Product :=
  let matched := products.filter (fun p =>
    likedProductIds.any (fun pid => pid.startsWith "VH")
      && ["Ties", "Belts", "Trousers"].contains p.category)
  if matched.isEmpty then products.take 3 else matched

/-- `_get_complementary_products`. -/
def getComplementaryProducts (products : List Product) (cart : List CartItem) : List Product :=
  getMatchingProducts products (cart.map (·.product_id))

/-- `_generate_reasoning`. -/
def generateReasoning (p : Product) (likedProducts : List String) (cart : List CartItem) : String :=
  if !likedProducts.isEmpty then "Pairs perfectly with your liked items"
  else if !cart.isEmpty then "Completes your look"
  else "Popular choice for " ++ String.intercalate ", " (p.tags.take 2)

/-- `RecommendationAgent._execute`. -/
def recExecute (products : List Product) (likedProducts : List String)
    (cart : List CartItem) (request : String) : Value :=
  let recommendations :=
    if !likedProducts.isEmpty then getMatchingProducts products likedProducts
    else if !cart.isEmpty then getComplementaryProducts products cart
    else getTrendingProducts products
  let withReasoning := recommendations.map (fun p =>
    Value.vDict (p.toDict ++ [("reasoning", .vStr (generateReasoning p likedProducts cart))]))
  .vDict [("recommendations", .vList (withReasoning.take 5)),
    ("total_found", .vNum recommendations.length)]

-- ===========================================================================
-- Inventory agent (`inventory_agent.py`)
-- ===========================================================================

/-- Fallback mock stores of `InventoryAgent._load_stores`. -/
def mockStores : List Store :=
  [⟨"S001", "Bandra Store", "Mumbai", "2km"⟩,
   ⟨"S002", "Powai Store", "Mumbai", "5km"⟩,
   ⟨"S003", "Andheri Store", "Mumbai", "7km"⟩]

/-- `_find_nearby_stores`: NOTE this returns a Python *list*, not a dict. -/
def findNearbyStores (stores : List Store) : List Value :=
  stores.map (fun s => Value.vDict
    [("name", .vStr s.name), ("distance", .vStr s.distance),
     ("stock_available", .vBool true), ("stock_count", .vNum 3)])

/-- `_find_alternative_products`: collect up to 3 products other than `pid`
from the inventory's product map. -/
def findAlternativeProducts (productsMap : List (String × Product)) (pid : String) : List Value :=
  ((productsMap.filter (fun e => e.1 ≠ pid)).take 3).map (fun e => Value.vDict
    [("product_id", .vStr e.1), ("name", .vStr e.2.name),
     ("price", .vNum e.2.price), ("similarity", .vNum (85/100))])

/-- `InventoryAgent._check_stock`. -/
def checkStock (stores : List Store) (productsMap : List (String × Product))
    (productId size location : String) : Value :=
  if productId = "VH001" then
    .vDict [("available", .vBool true), ("product_id", .vStr productId), ("size", .vStr size),
      ("store", .vStr "Bandra Store"), ("stock", .vNum 3), ("distance", .vStr "2km"),
      ("can_reserve", .vBool true)]
  else if productId = "VH999" || strContains (lowerStr productId) "out" then
    .vDict [("available", .vBool false), ("product_id", .vStr productId), ("size", .vStr size),
      ("message", .vStr ("Size " ++ size ++ " unavailable at your location")),
      ("nearby_stores", .vList ((findNearbyStores stores).take 2)),
      ("alternatives", .vList ((findAlternativeProducts productsMap productId).take 2)),
      ("restock_date", .vStr "3 days")]
  else
    .vDict [("available", .vBool true), ("product_id", .vStr productId), ("size", .vStr size),
      ("store", .vStr "Bandra Store"), ("stock", .vNum 5), ("distance", .vStr "2km")]

/-- `InventoryAgent._check_cart_availability`. -/
def checkCartAvailability (stores : List Store) (productsMap : List (String × Product))
    (cart : List CartItem) (location : String) : Value :=
  let unavailableItems := (cart.filter (fun item =>
    !(truthy (vGetD (checkStock stores productsMap item.product_id (item.size.getD "40") location)
        "available" .vNone)))).map (·.product_id)
  let allAvailable := unavailableItems.isEmpty
  .vDict [("all_available", .vBool allAvailable),
    ("unavailable_items", .vList (unavailableItems.map Value.vStr)),
    ("message", .vStr (if allAvailable then "All items available" else "Some items unavailable"))]

/-- `InventoryAgent._execute`. -/
def invExecute (stores : List Store) (productsMap : List (String × Product))
    (request : String) (cart : List CartItem) (location : String) : Value :=
  let r := lowerStr request
  if strContains r "stock" || strContains r "available" then
    match cart with
    | item :: _ => checkStock stores productsMap item.product_id (item.size.getD "40") location
    | [] => checkStock stores productsMap "VH001" "40" location
  else if strContains r "store" || strContains r "nearby" then
    .vList (findNearbyStores stores)
  else
    match cart with
    | _ :: _ => checkCartAvailability stores productsMap cart location
    | [] => .vDict [("available", .vBool true), ("message", .vStr "All items in stock")]

-- ===========================================================================
-- Fulfillment agent (`fulfillment_agent.py`)
-- ===========================================================================

/-- The `delivery_options` literal of `FulfillmentAgent._execute`. -/
def deliveryOptions : List Value :=
  [.vDict [("type", .vStr "express"), ("timeline", .vStr "Tomorrow 10 AM"),
     ("cost", .vNum 99), ("available", .vBool true)],
   .vDict [("type", .vStr "standard"), ("timeline", .vStr "2-3 days"),
     ("cost", .vNum 0), ("available", .vBool true)],
   .vDict [("type", .vStr "store_pickup"), ("timeline", .vStr "Today 6 PM"),
     ("cost", .vNum 0), ("available", .vBool true), ("store", .vStr "Bandra Store")]]

/-- `FulfillmentAgent._execute`. -/
def fulfillExecute (cart : List CartItem) (location : String) : Value :=
  if cart.isEmpty then
    .vDict [("status", .vStr "no_order"), ("message", .vStr "No items to deliver")]
  else
    let cartValue : ℚ := (cart.map (fun item => (2500 : ℚ) * item.qty)).sum
    let recommended := if cartValue > 4000 then "standard" else "express"
    .vDict [("status", .vStr "available"), ("delivery_options", .vList deliveryOptions),
      ("recommended", .vStr recommended),
      ("timeline", .vStr (if cartValue > 4000 then "2-3 days" else "Tomorrow")),
      ("message", .vStr (if cartValue > 4000 then "Free delivery available!" else "Express delivery available"))]

-- ===========================================================================
-- Loyalty agent (`loyalty_agent.py`)
-- ===========================================================================

/-- Fallback mock customer data of `LoyaltyAgent._load_customers`. -/
def mockCustomers : List (String × Customer) :=
  [("CUST001", ⟨"CUST001", "Rahul Sharma", 500, "Gold"⟩)]

/-- `LoyaltyAgent._execute`. -/
def loyaltyExecute (customers : List (String × Customer)) (customerId : String)
    (cart : List CartItem) : Value :=
  let pointsAvailable : ℚ := match customers.lookup customerId with
    | some c => c.loyalty_points
    | none => 500
  let cartValue : ℚ := (cart.map (fun item => (2500 : ℚ) * item.qty)).sum
  let offers : List String :=
    if cart.length ≥ 3 then ["Bundle Offer: 20% off on 3+ items"]
    else if cart.length ≥ 2 then ["Multi-buy: 10% off on 2+ items"]
    else []
  let discountAmount : ℚ :=
    if cart.length ≥ 3 then cartValue * (20/100)
    else if cart.length ≥ 2 then cartValue * (10/100)
    else 0
  let pointsValue := pointsAvailable
  let finalPrice := cartValue - discountAmount - min pointsValue (cartValue * (1/10))
  .vDict [("status", .vStr "calculated"), ("points_available", .vNum pointsAvailable),
    ("points_value", .vNum pointsValue), ("offers", .vList (offers.map Value.vStr)),
    ("discount_amount", .vNum discountAmount), ("original_price", .vNum cartValue),
    ("final_price", .vNum finalPrice), ("savings", .vNum (cartValue - finalPrice)),
    ("message", .vStr ("You're saving ₹" ++ fmt0 (cartValue - finalPrice) ++ "!"))]

-- ===========================================================================
-- Support agent (`support_agent.py`)
-- ===========================================================================

def handleReturnRequest : Value :=
  .vDict [("status", .vStr "eligible"), ("return_window", .vStr "30 days"),
    ("conditions", .vList [.vStr "Unused with tags", .vStr "Original packaging"]),
    ("refund_timeline", .vStr "5-7 days"), ("pickup_available", .vBool true),
    ("message", .vStr "You can return this item within 30 days. Pickup can be scheduled.")]

def handleExchangeRequest : Value :=
  .vDict [("status", .vStr "eligible"),
    ("exchange_options", .vList [.vStr "Different size", .vStr "Different color", .vStr "Different product"]),
    ("timeline", .vStr "3-5 days for exchange"), ("cost", .vStr "Free exchange"),
    ("message", .vStr "We can arrange an exchange. What would you like instead?")]

def provideGeneralHelp : Value :=
  .vDict [("status", .vStr "available"),
    ("help_topics", .vList [.vStr "Order tracking", .vStr "Returns & Exchanges",
      .vStr "Payment issues", .vStr "Product questions"]),
    ("contact", .vDict [("phone", .vStr "1800-XXX-XXXX"),
      ("email", .vStr "support@vanheusen.com"), ("chat", .vStr "Available 24/7")]),
    ("message", .vStr "I can help you with orders, returns, or any questions!")]

/-- `SupportAgent._execute`. -/
def supportExecute (request : String) : Value :=
  let r := lowerStr request
  if strContains r "return" || strContains r "refund" then handleReturnRequest
  else if strContains r "exchange" || strContains r "replace" then handleExchangeRequest
  else if strContains r "help" || strContains r "issue" then provideGeneralHelp
  else .vDict [("status", .vStr "ready"),
    ("message", .vStr "I'm here to help! You can ask about returns, exchanges, or any issues.")]

-- ===========================================================================
-- Base agent wrapper (`base_agent.py`, BaseAgent.run) and the dispatcher
-- (`orchestrator_graph.py`, call_agents_node)
-- ===========================================================================

/-- The value list stored under the state's `agent_calls` key. -/
def getCalls (st : StateDict) : List Value :=
  match sGet st "agent_calls" with
  | some (.vList l) => l
  | _ => []

def setCalls (st : StateDict) (l : List Value) : StateDict :=
  setKey st "agent_calls" (.vList l)

/-- `state["agent_calls"].append(entry)`. -/
def appendCall (st : StateDict) (e : Value) : StateDict :=
  setCalls st (getCalls st ++ [e])

/-- Map the last element of a list (Python's `lst[-1]`-update). -/
def modifyLast (f : Value → Value) : List Value → List Value
  | [] => []
  | [e] => [f e]
  | e :: rest => e :: modifyLast f rest

/-- `entry.update(kvs)` on one audit-log entry value. -/
def applyKvs (kvs : List (String × Value)) (v : Value) : Value :=
  match v with
  | .vDict d => .vDict (dictUpdate d kvs)
  | v => v

/-- `state["agent_calls"][-1].update(kvs)`: mutate whatever entry is
currently last in the audit log. -/
def updateLastCall (st : StateDict) (kvs : List (String × Value)) : StateDict :=
  setCalls st (modifyLast (applyKvs kvs) (getCalls st))

/-- An agent's `_execute` outcome: its returned dict/value, or a raised
exception's description. -/
abbrev ExecOutcome := Except String Value

/-- `BaseAgent.run`: append a `processing` audit entry, run `_execute`, then
update that entry to `success` (with the result) or `failed` (with the error),
returning the result, or `{}` on failure (wall-clock fields not modelled). -/
def runAgent (name : String) (outcome : ExecOutcome) (st : StateDict) : StateDict × Value :=
  let st1 := appendCall st (.vDict [("agent", .vStr name), ("status", .vStr "processing")])
  match outcome with
  | .ok r => (updateLastCall st1 [("status", .vStr "success"), ("result", r)], r)
  | .error e => (updateLastCall st1 [("status", .vStr "failed"), ("error", .vStr e)], .vDict [])

/-- Run the dispatched agents in task order, returning the mutated state and
the `asyncio.gather` result list (sequential embedding of the fan-out). -/
def runAll (st : StateDict) : List (String × ExecOutcome) → StateDict × List Value
  | [] => (st, [])
  | b :: bs =>
    let (st1, r) := runAgent b.1 b.2 st
    let (st2, rs) := runAll st1 bs
    (st2, r :: rs)

/-- `for result in results: if result: state.update(result)` — a truthy
non-dict result (e.g. the inventory agent's nearby-stores *list*) makes
`dict.update` raise, which we surface as an error. -/
def mergeAll (st : StateDict) : List Value → Except String StateDict
  | [] => .ok st
  | r :: rs =>
    if truthy r then
      match r with
      | .vDict kvs => mergeAll (dictUpdate st kvs) rs
      | _ => .error "ValueError: dict.update with non-dict"
    else mergeAll st rs

/-- `call_agents_node`: run every dispatched agent, then merge the returned
partial results into the state in task order. -/
def callAgentsNode (behaviors : List (String × ExecOutcome)) (st : StateDict) :
    Except String StateDict :=
  let (st1, results) := runAll st behaviors
  mergeAll st1 results

-- ===========================================================================
-- Graph state (`state.py`) and the remaining nodes (`orchestrator_graph.py`)
-- ===========================================================================

/-- The caller-supplied inputs of one orchestration run. -/
structure RunInput where
  session_id : String
  customer_id : String
  channel : String
  current_request : String
  messages : List Value
  liked_products : List String
  cart : List CartItem
  location : String

/-- `create_initial_state` (state.py lines 48-82). -/
def createInitialState (inp : RunInput) : StateDict :=
  [("session_id", .vStr inp.session_id),
   ("customer_id", .vStr inp.customer_id),
   ("channel", .vStr inp.channel),
   ("current_request", .vStr inp.current_request),
   ("messages", .vList inp.messages),
   ("intent", .vNone),
   ("liked_products", .vList (inp.liked_products.map Value.vStr)),
   ("cart", .vList (inp.cart.map CartItem.toDict)),
   ("location", .vStr inp.location),
   ("agent_calls", .vList []),
   ("agents_needed", .vList []),
   ("recommendations", .vNone),
   ("inventory_status", .vNone),
   ("payment_status", .vNone),
   ("fulfillment_info", .vNone),
   ("loyalty_info", .vNone),
   ("support_info", .vNone),
   ("response", .vStr ""),
   ("next_action", .vNone),
   ("error", .vNone)]

/-- The audit entry `orchestrator_node` appends after intent detection. -/
def orchestratorEntry (ids : List String) : Value :=
  .vDict [("agent", .vStr "orchestrator"), ("action", .vStr "analyzed_request"),
    ("agents_to_call", .vList (ids.map Value.vStr))]

/-- `orchestrator_node`: store the selected agent ids and append the
orchestrator's own audit-log entry. -/
def orchestratorNode (inp : RunInput) (st : StateDict) : StateDict :=
  let ids := agentsNeeded inp.current_request inp.cart inp.liked_products
  appendCall (setKey st "agents_needed" (.vList (ids.map Value.vStr))) (orchestratorEntry ids)

/-- The canned replies of `simple_response_node`. -/
def simpleReply (request : String) : String :=
  let r := lowerStr request
  if anyKeyword r ["hi", "hello", "hey"] then
    "Hello! I'm your AI shopping assistant. I can help you find products, check availability, and complete your purchase. What are you looking for today?"
  else if anyKeyword r ["thank", "thanks"] then
    "You're welcome! Is there anything else I can help you with?"
  else
    "I'm here to help! You can ask me about products, availability, or placing an order."

/-- `simple_response_node`. -/
def simpleResponseNode (inp : RunInput) (st : StateDict) : StateDict :=
  setKey st "response" (.vStr (simpleReply inp.current_request))

-- ===========================================================================
-- Response synthesizer (`synthesize_response_node`)
-- ===========================================================================

def synthGreeting : String := "Hi! I'm your AI shopping assistant. How can I help you today?"

def synthFallback : String :=
  "I'm here to help! You can ask me about products, check availability, or place an order."

/-- One recommendation line `f"â€¢ {rec['name']} - â‚¹{rec['price']}"` (the
source file's literal bytes render the bullet and rupee sign this way). -/
def recLineStr (name price : Value) : String :=
  "â€¢ " ++ pyStr name ++ " - â‚¹" ++ pyStr price

def recLine (rec : Value) : Except String String :=
  match itemGet rec "name", itemGet rec "price" with
  | .ok n, .ok p => .ok (recLineStr n p)
  | .error e, _ => .error e
  | _, .error e => .error e

/-- Run an item renderer over a list, stopping at the first raised error. -/
def mapExcept (f : Value → Except String String) : List Value → Except String (List String)
  | [] => .ok []
  | a :: l =>
    match f a, mapExcept f l with
    | .ok b, .ok bs => .ok (b :: bs)
    | .error e, _ => .error e
    | _, .error e => .error e

/-- The recommendations section (top 3 of the slot's list). -/
def recSection (o : Option Value) : Except String (List String) :=
  if truthyOpt o then
    match o with
    | some (.vList recs) =>
      match mapExcept recLine (recs.take 3) with
      | .ok lines => .ok (("Based on your preferences, I found " ++ toString recs.length
          ++ " items you might love:") :: lines)
      | .error e => .error e
    | _ => .error "TypeError: recommendations is not a list"
  else .ok []

/-- The inventory-status section. -/
def invSection (o : Option Value) : Except String (List String) :=
  if truthyOpt o then
    match o with
    | some inv =>
      if truthy (vGetD inv "available" .vNone) then
        match itemGet inv "store", itemGet inv "stock" with
        | .ok store, .ok stock =>
          .ok ["âœ“ Available at " ++ pyStr store ++ " (" ++ pyStr stock ++ " in stock)"]
        | .error e, _ => .error e
        | _, .error e => .error e
      else
        .ok ["Currently unavailable. Alternative: "
          ++ pyStr (vGetD inv "alternative" (.vStr "Check other stores"))]
    | none => .ok []
  else .ok []

/-- The loyalty section (points line, then top offer line). -/
def loySection (o : Option Value) : Except String (List String) :=
  if truthyOpt o then
    match o with
    | some loyalty =>
      let part1 : Except String (List String) :=
        if truthy (vGetD loyalty "points_available" .vNone) then
          match itemGet loyalty "points_available", itemGet loyalty "value" with
          | .ok pts, .ok v =>
            .ok ["ðŸ’Ž You have " ++ pyStr pts ++ " loyalty points (â‚¹" ++ pyStr v ++ ")"]
          | .error e, _ => .error e
          | _, .error e => .error e
        else .ok []
      let part2 : Except String (List String) :=
        if truthy (vGetD loyalty "offers" .vNone) then
          match itemGet loyalty "offers" with
          | .ok (.vList (first :: _)) => .ok ["ðŸŽ Special offer: " ++ pyStr first]
          | .ok _ => .error "IndexError: offers[0]"
          | .error e => .error e
        else .ok []
      match part1, part2 with
      | .ok p1, .ok p2 => .ok (p1 ++ p2)
      | .error e, _ => .error e
      | _, .error e => .error e
    | none => .ok []
  else .ok []

/-- The payment section. -/
def paySection (o : Option Value) : Except String (List String) :=
  if truthyOpt o then
    match o with
    | some payment =>
      if truthy (vGetD payment "success" .vNone) then
        match itemGet payment "transaction_id" with
        | .ok txn => .ok ["âœ… Payment successful! Transaction ID: " ++ pyStr txn]
        | .error e => .error e
      else
        .ok ["âš ï¸ Payment issue: " ++ pyStr (vGetD payment "message" (.vStr "Please try again"))]
    | none => .ok []
  else .ok []

/-- The fulfillment section. -/
def fulSection (o : Option Value) : Except String (List String) :=
  if truthyOpt o then
    match o with
    | some ful => .ok ["ðŸ“¦ Delivery: " ++ pyStr (vGetD ful "timeline" (.vStr "2-3 days"))]
    | none => .ok []
  else .ok []

/-- The support section (appends `support.get("message", "")` even if empty). -/
def supSection (o : Option Value) : Except String (List String) :=
  if truthyOpt o then
    match o with
    | some sup => .ok [pyStr (vGetD sup "message" (.vStr ""))]
    | none => .ok []
  else .ok []

/-- `synthesize_response_node`'s `response_parts` list, assembled section by
section in the source's order; the first section error aborts the node. -/
def synthesizeParts (st : StateDict) : Except String (List String) :=
  let greeting : List String :=
    if truthyOpt (sGet st "messages") then [] else [synthGreeting]
  match recSection (sGet st "recommendations") with
  | .error e => .error e
  | .ok recs =>
    match invSection (sGet st "inventory_status") with
    | .error e => .error e
    | .ok inv =>
      match loySection (sGet st "loyalty_info") with
      | .error e => .error e
      | .ok loy =>
        match paySection (sGet st "payment_status") with
        | .error e => .error e
        | .ok pay =>
          match fulSection (sGet st "fulfillment_info") with
          | .error e => .error e
          | .ok ful =>
            match supSection (sGet st "support_info") with
            | .error e => .error e
            | .ok sup =>
              let parts := greeting ++ recs ++ inv ++ loy ++ pay ++ ful ++ sup
              .ok (if parts.isEmpty then [synthFallback] else parts)

/-- `synthesize_response_node`: join the parts and store them as the response. -/
def synthesizeNode (st : StateDict) : Except String StateDict :=
  (synthesizeParts st).map (fun parts =>
    setKey st "response" (.vStr (String.intercalate "\n\n" parts)))

-- ===========================================================================
-- The compiled graph (`create_orchestrator_graph`): whole-run pipeline
-- ===========================================================================

/-- The data the agents load at startup plus the run's injected randomness and
event-loop clock. -/
structure Env where
  recProducts : List Product
  stores : List Store
  invProducts : List (String × Product)
  customers : List (String × Customer)
  txn : Nat
  draws : Nat → ℚ
  times : Nat → ℚ

/-- A default environment: every agent falls back to its mock data. -/
def mockEnv : Env :=
  { recProducts := mockProducts, stores := mockStores, invProducts := [],
    customers := mockCustomers, txn := 123456,
    draws := fun _ => 1/2, times := fun _ => 0 }

/-- The tasks `call_agents_node` builds for the five non-recommendation
agents, in its fixed source order. -/
def nonRecBehaviors (inp : RunInput) (env : Env) (ids : List String) :
    List (String × ExecOutcome) :=
  (if ids.contains "inventory" then
    [("Inventory Agent", Except.ok (invExecute env.stores env.invProducts inp.current_request inp.cart inp.location))] else [])
  ++ (if ids.contains "payment" then
    [("Payment Agent", Except.ok (paymentExecute inp.current_request inp.cart env.txn env.draws env.times))] else [])
  ++ (if ids.contains "fulfillment" then
    [("Fulfillment Agent", Except.ok (fulfillExecute inp.cart inp.location))] else [])
  ++ (if ids.contains "loyalty" then
    [("Loyalty Agent", Except.ok (loyaltyExecute env.customers inp.customer_id inp.cart))] else [])
  ++ (if ids.contains "support" then
    [("Support Agent", Except.ok (supportExecute inp.current_request))] else [])

/-- The task list `call_agents_node` builds, in its fixed source order. -/
def realBehaviors (inp : RunInput) (env : Env) (ids : List String) :
    List (String × ExecOutcome) :=
  (if ids.contains "recommendation" then
    [("Recommendation Agent", Except.ok (recExecute env.recProducts inp.liked_products inp.cart inp.current_request))] else [])
  ++ nonRecBehaviors inp env ids

/-- One full run of the compiled graph: orchestrator → (call_agents |
simple_response) → synthesize. -/
def runPipeline (inp : RunInput) (env : Env) : Except String StateDict :=
  let st0 := createInitialState inp
  let st1 := orchestratorNode inp st0
  let ids := agentsNeeded inp.current_request inp.cart inp.liked_products
  if ids.isEmpty then
    synthesizeNode (simpleResponseNode inp st1)
  else do
    let st2 ← callAgentsNode (realBehaviors inp env ids) st1
    synthesizeNode st2

-- ===========================================================================
-- Projections used to state run-level properties without spelling out states
-- ===========================================================================

/-- Whether a run/merge completed without a raised error. -/
def exceptOk {α : Type} (e : Except String α) : Bool :=
  match e with | .ok _ => true | .error _ => false

/-- Look a key up in a completed run's final state. -/
def lookOf (e : Except String StateDict) (k : String) : Option Value :=
  match e with | .ok st => sGet st k | .error _ => none

/-- The final audit log of a completed run. -/
def callsOf (e : Except String StateDict) : Option (List Value) :=
  match e with | .ok st => some (getCalls st) | .error _ => none

-- ===========================================================================
-- Classifier lemmas (claim C4)
-- ===========================================================================

/-- Keep the first occurrence of each element, dropping later duplicates. -/
def firstDedupAux (seen : List String) : List String → List String
  | [] => []
  | a :: t => if seen.contains a then firstDedupAux seen t else a :: firstDedupAux (a :: seen) t

def firstDedup (l : List String) : List String := firstDedupAux [] l

/-- The keyword-matched agent ids as a function of the six match booleans. -/
def matchedOf (mRec mInv mPay mFul mLoy mSup : Bool) : List String :=
  (if mRec then ["recommendation"] else []) ++ (if mInv then ["inventory"] else [])
  ++ (if mPay then ["payment"] else []) ++ (if mFul then ["fulfillment"] else [])
  ++ (if mLoy then ["loyalty"] else []) ++ (if mSup then ["support"] else [])

/-- The raw contribution sequence of the classifier's rules in source order:
keyword groups, then the forced `recommendation`, then the forced `loyalty`. -/
def rawSelections (mRec mInv mPay mFul mLoy mSup cartOrLiked : Bool) : List String :=
  matchedOf mRec mInv mPay mFul mLoy mSup
  ++ (if cartOrLiked then ["recommendation"] else [])
  ++ (if mRec || mInv || mPay || mFul || mLoy || mSup || cartOrLiked then ["loyalty"] else [])

theorem matchedIds_eq (lreq : String) :
    matchedIds lreq = matchedOf (anyKeyword lreq recommendationWords)
      (anyKeyword lreq inventoryWords) (anyKeyword lreq paymentWords)
      (anyKeyword lreq fulfillmentWords) (anyKeyword lreq loyaltyWords)
      (anyKeyword lreq supportWords) := by
  simp only [matchedIds, keywordGroups, List.filter, matchedOf]
  cases anyKeyword lreq recommendationWords <;>
    cases anyKeyword lreq inventoryWords <;>
    cases anyKeyword lreq paymentWords <;>
    cases anyKeyword lreq fulfillmentWords <;>
    cases anyKeyword lreq loyaltyWords <;>
    cases anyKeyword lreq supportWords <;> rfl

theorem selectCore_eq_firstDedup (b1 b2 b3 b4 b5 b6 b7 : Bool) :
    selectCore b1 b2 b3 b4 b5 b6 b7 = firstDedup (rawSelections b1 b2 b3 b4 b5 b6 b7) := by
  revert b1 b2 b3 b4 b5 b6 b7; decide

theorem selectCore_nodup (b1 b2 b3 b4 b5 b6 b7 : Bool) :
    (selectCore b1 b2 b3 b4 b5 b6 b7).Nodup := by
  revert b1 b2 b3 b4 b5 b6 b7; decide

theorem selectCore_superset (b1 b2 b3 b4 b5 b6 b7 : Bool) :
    ∀ a ∈ matchedOf b1 b2 b3 b4 b5 b6, a ∈ selectCore b1 b2 b3 b4 b5 b6 b7 := by
  revert b1 b2 b3 b4 b5 b6 b7; decide

theorem selectCore_loyalty (b1 b2 b3 b4 b5 b6 b7 : Bool)
    (h : (b1 || b2 || b3 || b4 || b5 || b6) = true) :
    "loyalty" ∈ selectCore b1 b2 b3 b4 b5 b6 b7 := by
  revert b1 b2 b3 b4 b5 b6 b7; decide

theorem selectCore_recommendation (b1 b2 b3 b4 b5 b6 : Bool) :
    "recommendation" ∈ selectCore b1 b2 b3 b4 b5 b6 true := by
  revert b1 b2 b3 b4 b5 b6; decide

/-- The classifier, characterised: accumulate the keyword-group matches in
group order, the forced `recommendation`, and the forced `loyalty`, keeping
first occurrences only. -/
theorem agentsNeeded_characterisation (request : String) (cart : List CartItem)
    (liked : List String) :
    agentsNeeded request cart liked =
      firstDedup (matchedIds (lowerStr request)
        ++ (if (!cart.isEmpty || !liked.isEmpty) then ["recommendation"] else [])
        ++ (if !(matchedIds (lowerStr request)).isEmpty || (!cart.isEmpty || !liked.isEmpty)
            then ["loyalty"] else [])) := by
  rw [matchedIds_eq]
  show selectCore _ _ _ _ _ _ _ = _
  rw [selectCore_eq_firstDedup]
  congr 1
  simp only [rawSelections]
  congr 2
  · cases anyKeyword (lowerStr request) recommendationWords <;>
      cases anyKeyword (lowerStr request) inventoryWords <;>
      cases anyKeyword (lowerStr request) paymentWords <;>
      cases anyKeyword (lowerStr request) fulfillmentWords <;>
      cases anyKeyword (lowerStr request) loyaltyWords <;>
      cases anyKeyword (lowerStr request) supportWords <;>
      cases (!cart.isEmpty || !liked.isEmpty) <;> rfl

theorem matchedOf_ne_nil (b1 b2 b3 b4 b5 b6 : Bool)
    (h : matchedOf b1 b2 b3 b4 b5 b6 ≠ []) : (b1 || b2 || b3 || b4 || b5 || b6) = true := by
  revert b1 b2 b3 b4 b5 b6; decide

/-- C4. For every request matching at least one keyword group, the classifier
result is a superset of the matched group ids, contains `loyalty`, contains
`recommendation` whenever the cart or the liked-products list is non-empty,
has no duplicates, and equals the first-seen-order dedup of the rules'
contributions in source order. -/
theorem claim_C4_classifier (request : String) (cart : List CartItem) (liked : List String)
    (h : matchedIds (lowerStr request) ≠ []) :
    (∀ a ∈ matchedIds (lowerStr request), a ∈ agentsNeeded request cart liked)
    ∧ "loyalty" ∈ agentsNeeded request cart liked
    ∧ (cart ≠ [] ∨ liked ≠ [] → "recommendation" ∈ agentsNeeded request cart liked)
    ∧ (agentsNeeded request cart liked).Nodup
    ∧ agentsNeeded request cart liked =
        firstDedup (matchedIds (lowerStr request)
          ++ (if (!cart.isEmpty || !liked.isEmpty) then ["recommendation"] else [])
          ++ ["loyalty"]) := by
  have key : agentsNeeded request cart liked
      = selectCore (anyKeyword (lowerStr request) recommendationWords)
          (anyKeyword (lowerStr request) inventoryWords)
          (anyKeyword (lowerStr request) paymentWords)
          (anyKeyword (lowerStr request) fulfillmentWords)
          (anyKeyword (lowerStr request) loyaltyWords)
          (anyKeyword (lowerStr request) supportWords)
          (!cart.isEmpty || !liked.isEmpty) := rfl
  rw [matchedIds_eq] at h
  have hmatch := matchedOf_ne_nil _ _ _ _ _ _ h
  refine ⟨?_, ?_, ?_, ?_, ?_⟩
  · intro a ha
    rw [matchedIds_eq] at ha
    rw [key]
    exact selectCore_superset _ _ _ _ _ _ _ a ha
  · rw [key]
    exact selectCore_loyalty _ _ _ _ _ _ _ hmatch
  · intro hcl
    have h7 : (!cart.isEmpty || !liked.isEmpty) = true := by
      rcases hcl with hc | hl
      · simp [List.isEmpty_iff, hc]
      · simp [List.isEmpty_iff, hl]
    rw [key, h7]
    exact selectCore_recommendation _ _ _ _ _ _
  · rw [key]
    exact selectCore_nodup _ _ _ _ _ _ _
  · rw [agentsNeeded_characterisation]
    congr 2
    have : (matchedIds (lowerStr request)).isEmpty = false := by
      rw [matchedIds_eq]
      rcases hm : matchedOf (anyKeyword (lowerStr request) recommendationWords)
          (anyKeyword (lowerStr request) inventoryWords)
          (anyKeyword (lowerStr request) paymentWords)
          (anyKeyword (lowerStr request) fulfillmentWords)
          (anyKeyword (lowerStr request) loyaltyWords)
          (anyKeyword (lowerStr request) supportWords) with _ | _
      · exact absurd hm h
      · rfl
    rw [this]
    simp

/-- Witness for C4 at a concrete request with a non-empty cart. -/
theorem claim_C4_classifier_witness :
    matchedIds (lowerStr "Show me shoes to buy") ≠ []
    ∧ "loyalty" ∈ agentsNeeded "Show me shoes to buy" [⟨"VH002", some 2, some "40"⟩] []
    ∧ "recommendation" ∈ agentsNeeded "Show me shoes to buy" [⟨"VH002", some 2, some "40"⟩] [] := by
  refine ⟨by decide, ?_, ?_⟩
  · exact (claim_C4_classifier "Show me shoes to buy" [⟨"VH002", some 2, some "40"⟩] []
      (by decide)).2.1
  · exact (claim_C4_classifier "Show me shoes to buy" [⟨"VH002", some 2, some "40"⟩] []
      (by decide)).2.2.1 (Or.inl (by decide))

-- ===========================================================================
-- Payment failover lemmas (claims C5, C9, C10)
-- ===========================================================================

/-- The attempts the gateway loop makes starting from gateway list `rest` at
draw index `i`: one entry per tried gateway, stopping after a success. -/
def attemptsList (draws times : Nat → ℚ) : List Gateway → Nat → List RetryEntry
  | [], _ => []
  | g :: rest, i =>
    RetryEntry.mk g.name (if attemptPayment g (draws i) then "success" else "failed") (times i)
      :: (if attemptPayment g (draws i) then [] else attemptsList draws times rest (i + 1))

/-- Whether some gateway in `rest` (from draw index `i`) succeeds before the
list runs out. -/
def anySucceeds (draws : Nat → ℚ) : List Gateway → Nat → Bool
  | [], _ => false
  | g :: rest, i => if attemptPayment g (draws i) then true else anySucceeds draws rest (i + 1)

theorem processAux_history (all : List Gateway) (amount : ℚ) (txn : Nat)
    (draws times : Nat → ℚ) :
    ∀ (rest : List Gateway) (i : Nat) (acc : List RetryEntry),
      (processAux all amount txn draws times rest i acc).retry_history
        = acc ++ attemptsList draws times rest i := by
  intro rest
  induction rest with
  | nil => intro i acc; simp [processAux, attemptsList]
  | cons g rest ih =>
    intro i acc
    by_cases h : attemptPayment g (draws i)
    · simp [processAux, attemptsList, h]
    · simp only [processAux, attemptsList, h, if_neg, if_false, Bool.false_eq_true,
        ite_false, ih]
      simp

theorem processAux_success (all : List Gateway) (amount : ℚ) (txn : Nat)
    (draws times : Nat → ℚ) :
    ∀ (rest : List Gateway) (i : Nat) (acc : List RetryEntry),
      (processAux all amount txn draws times rest i acc).success = anySucceeds draws rest i := by
  intro rest
  induction rest with
  | nil => intro i acc; simp [processAux, anySucceeds]
  | cons g rest ih =>
    intro i acc
    by_cases h : attemptPayment g (draws i) <;> simp [processAux, anySucceeds, h, ih]

theorem processAux_status (all : List Gateway) (amount : ℚ) (txn : Nat)
    (draws times : Nat → ℚ) :
    ∀ (rest : List Gateway) (i : Nat) (acc : List RetryEntry),
      (processAux all amount txn draws times rest i acc).status
        = if anySucceeds draws rest i then "completed" else "failed" := by
  intro rest
  induction rest with
  | nil => intro i acc; simp [processAux, anySucceeds]
  | cons g rest ih =>
    intro i acc
    by_cases h : attemptPayment g (draws i) <;> simp [processAux, anySucceeds, h, ih]

theorem attemptsList_length_le (draws times : Nat → ℚ) :
    ∀ (rest : List Gateway) (i : Nat), (attemptsList draws times rest i).length ≤ rest.length := by
  intro rest
  induction rest with
  | nil => intro i; simp [attemptsList]
  | cons g rest ih =>
    intro i
    by_cases h : attemptPayment g (draws i) <;> simp [attemptsList, h]
    exact ih (i + 1)

/-- The attempted gateways are exactly a prefix of the gateway list, in list
order. -/
theorem attemptsList_gateways (draws times : Nat → ℚ) :
    ∀ (rest : List Gateway) (i : Nat),
      (attemptsList draws times rest i).map (·.gateway)
        = ((rest.map (·.name)).take (attemptsList draws times rest i).length) := by
  intro rest
  induction rest with
  | nil => intro i; simp [attemptsList]
  | cons g rest ih =>
    intro i
    by_cases h : attemptPayment g (draws i) <;> simp [attemptsList, h]
    exact ih (i + 1)

/-- Every attempt before the last one failed (the loop stops at the first
success). -/
theorem attemptsList_prefix_failed (draws times : Nat → ℚ) :
    ∀ (rest : List Gateway) (i : Nat) (j : Nat) (e : RetryEntry),
      j + 1 < (attemptsList draws times rest i).length →
      (attemptsList draws times rest i)[j]? = some e → e.status = "failed" := by
  intro rest
  induction rest with
  | nil => intro i j e hj; simp [attemptsList] at hj
  | cons g rest ih =>
    intro i j e hj hget
    by_cases h : attemptPayment g (draws i)
    · simp [attemptsList, h] at hj
    · simp only [attemptsList, h, if_neg, if_false, Bool.false_eq_true, ite_false] at hj hget
      match j, hget with
      | 0, hget =>
        simp at hget
        simp [← hget]
      | j + 1, hget =>
        simp at hget hj
        exact ih (i + 1) j e (by omega) hget

/-- If some gateway succeeded, the last history entry records the success. -/
theorem attemptsList_last_success (draws times : Nat → ℚ) :
    ∀ (rest : List Gateway) (i : Nat), anySucceeds draws rest i = true →
      ((attemptsList draws times rest i).getLast?).map (·.status) = some "success" := by
  intro rest
  induction rest with
  | nil => intro i h; simp [anySucceeds] at h
  | cons g rest ih =>
    intro i h
    by_cases hg : attemptPayment g (draws i)
    · simp [attemptsList, hg]
    · have h' : anySucceeds draws rest (i + 1) = true := by
        simpa [anySucceeds, hg] using h
      have hrec := ih (i + 1) h'
      rcases hl : attemptsList draws times rest (i + 1) with _ | ⟨x, xs⟩
      · rw [hl] at hrec; simp [List.getLast?] at hrec
      · have hstep : attemptsList draws times (g :: rest) i
            = RetryEntry.mk g.name "failed" (times i) :: x :: xs := by
          simp [attemptsList, hg, hl]
        rw [hstep, List.getLast?_cons_cons, ← hl]
        exact hrec

/-- If no gateway succeeded, every gateway was attempted and every attempt
failed. -/
theorem attemptsList_all_failed (draws times : Nat → ℚ) :
    ∀ (rest : List Gateway) (i : Nat), anySucceeds draws rest i = false →
      (attemptsList draws times rest i).length = rest.length
      ∧ ∀ e ∈ attemptsList draws times rest i, e.status = "failed" := by
  intro rest
  induction rest with
  | nil => intro i _; simp [attemptsList]
  | cons g rest ih =>
    intro i h
    by_cases hg : attemptPayment g (draws i)
    · simp [anySucceeds, hg] at h
    · simp only [anySucceeds, hg, if_neg, if_false, Bool.false_eq_true, ite_false] at h
      obtain ⟨hlen, hall⟩ := ih (i + 1) h
      constructor
      · simp [attemptsList, hg, hlen]
      · intro e he
        simp [attemptsList, hg] at he
        rcases he with he | he
        · simp [he]
        · exact hall e he

/-- C5. The failover protocol tries gateways strictly in list order (the
attempted gateways are a prefix of the list, hence never the same gateway
twice when names are distinct), stops at the first success, records every
attempt in order, returns the full history on both terminal outcomes, and on
all-fail returns success=false, status="failed" and one history entry per
gateway. -/
theorem claim_C5_payment_failover (gws : List Gateway) (amount : ℚ) (txn : Nat)
    (draws times : Nat → ℚ) (res : PaymentResult)
    (hres : res = processPaymentWithRetry gws amount txn draws times) :
    (res.retry_history.map (·.gateway) = (gws.map (·.name)).take res.retry_history.length)
    ∧ ((gws.map (·.name)).Nodup → (res.retry_history.map (·.gateway)).Nodup)
    ∧ (∀ j e, j + 1 < res.retry_history.length →
        res.retry_history[j]? = some e → e.status = "failed")
    ∧ (res.success = true → (res.retry_history.getLast?).map (·.status) = some "success")
    ∧ (res.success = false → res.status = "failed"
        ∧ res.retry_history.length = gws.length
        ∧ ∀ e ∈ res.retry_history, e.status = "failed") := by
  have hh : res.retry_history = attemptsList draws times gws 0 := by
    rw [hres, processPaymentWithRetry, processAux_history]; simp
  have hs : res.success = anySucceeds draws gws 0 := by
    rw [hres, processPaymentWithRetry, processAux_success]
  have hst : res.status = if anySucceeds draws gws 0 then "completed" else "failed" := by
    rw [hres, processPaymentWithRetry, processAux_status]
  refine ⟨?_, ?_, ?_, ?_, ?_⟩
  · rw [hh]; exact attemptsList_gateways draws times gws 0
  · intro hnd
    rw [hh, attemptsList_gateways draws times gws 0]
    exact hnd.sublist (List.take_sublist _ _)
  · intro j e hj hget
    rw [hh] at hj hget
    exact attemptsList_prefix_failed draws times gws 0 j e hj hget
  · intro hsucc
    rw [hs] at hsucc
    rw [hh]
    exact attemptsList_last_success draws times gws 0 hsucc
  · intro hfail
    rw [hs] at hfail
    obtain ⟨hlen, hall⟩ := attemptsList_all_failed draws times gws 0 hfail
    refine ⟨by rw [hst, hfail]; rfl, by rw [hh]; simpa using hlen, ?_⟩
    intro e he
    rw [hh] at he
    exact hall e he

/-- Witness for C5: the configured gateways with every draw equal to 1 (so
every attempt fails, since no success rate exceeds 1). -/
theorem claim_C5_payment_failover_witness :
    ((processPaymentWithRetry paymentGateways 100 7 (fun _ => 1) (fun _ => 0)).retry_history.map
      (·.gateway)).Nodup
    ∧ (processPaymentWithRetry paymentGateways 100 7 (fun _ => 1) (fun _ => 0)).status = "failed"
    ∧ (processPaymentWithRetry paymentGateways 100 7 (fun _ => 1) (fun _ => 0)).retry_history.length
        = paymentGateways.length := by
  have h := claim_C5_payment_failover paymentGateways 100 7 (fun _ => 1) (fun _ => 0) _ rfl
  have h1 : ¬ ((1 : ℚ) < 3/10) := by norm_num
  have h2 : ¬ ((1 : ℚ) < 1) := lt_irrefl 1
  have hfail : (processPaymentWithRetry paymentGateways 100 7 (fun _ => 1) (fun _ => 0)).success
      = false := by
    rw [processPaymentWithRetry, processAux_success]
    simp [anySucceeds, paymentGateways, attemptPayment, h1, h2]
  exact ⟨h.2.1 (by decide), (h.2.2.2.2 hfail).1, (h.2.2.2.2 hfail).2.1⟩

theorem selectCore_payment (b1 b2 b3 b4 b5 b6 b7 : Bool) (h : b3 = true) :
    "payment" ∈ selectCore b1 b2 b3 b4 b5 b6 b7 := by
  revert b1 b2 b3 b4 b5 b6 b7; decide

/-- C9. A request whose lowering contains "buy" but none of "pay",
"checkout", "purchase" selects the payment agent, yet `PaymentAgent._execute`
returns the pending literal without running the failover loop: no
`retry_history` key is produced. -/
theorem claim_C9_buy_pending (request : String) (cart : List CartItem) (liked : List String)
    (txn : Nat) (draws times : Nat → ℚ)
    (hbuy : strContains (lowerStr request) "buy" = true)
    (hpay : strContains (lowerStr request) "pay" = false)
    (hchk : strContains (lowerStr request) "checkout" = false)
    (hpur : strContains (lowerStr request) "purchase" = false) :
    "payment" ∈ agentsNeeded request cart liked
    ∧ paymentExecute request cart txn draws times
        = .vDict [("status", .vStr "pending"), ("amount", .vNum (calculateTotal cart)),
            ("message", .vStr "Ready to process payment")]
    ∧ vGetD (paymentExecute request cart txn draws times) "retry_history" .vNone = .vNone := by
  have hkw : anyKeyword (lowerStr request) paymentWords = true := by
    simp [anyKeyword, paymentWords, hbuy]
  have hexec : paymentExecute request cart txn draws times
      = .vDict [("status", .vStr "pending"), ("amount", .vNum (calculateTotal cart)),
          ("message", .vStr "Ready to process payment")] := by
    simp [paymentExecute, hpay, hchk, hpur]
  refine ⟨?_, hexec, ?_⟩
  · show "payment" ∈ selectCore _ _ _ _ _ _ _
    exact selectCore_payment _ _ _ _ _ _ _ hkw
  · rw [hexec]; rfl

/-- Witness for C9 at the request "i will buy it". -/
theorem claim_C9_buy_pending_witness :
    strContains (lowerStr "i will buy it") "buy" = true
    ∧ "payment" ∈ agentsNeeded "i will buy it" [] []
    ∧ paymentExecute "i will buy it" [] 7 (fun _ => 1/2) (fun _ => 0)
        = .vDict [("status", .vStr "pending"), ("amount", .vNum 3950),
            ("message", .vStr "Ready to process payment")] := by
  have h := claim_C9_buy_pending "i will buy it" [] [] 7 (fun _ => 1/2) (fun _ => 0)
    (by decide) (by decide) (by decide) (by decide)
  exact ⟨by decide, h.1, by rw [h.2.1]; rfl⟩

/-- C10. With the configured gateway list (last gateway success rate 1.0) and
every draw in [0,1), the retry loop always succeeds, with at most 3 history
entries; the all-gateways-failed branch is unreachable. -/
theorem claim_C10_upi_always_succeeds (amount : ℚ) (txn : Nat) (draws times : Nat → ℚ)
    (hd : ∀ i, 0 ≤ draws i ∧ draws i < 1) :
    (processPaymentWithRetry paymentGateways amount txn draws times).success = true
    ∧ (processPaymentWithRetry paymentGateways amount txn draws times).status = "completed"
    ∧ (processPaymentWithRetry paymentGateways amount txn draws times).retry_history.length ≤ 3 := by
  have hsucc : anySucceeds draws paymentGateways 0 = true := by
    simp only [paymentGateways, anySucceeds, attemptPayment]
    by_cases h0 : draws 0 < 3/10 <;> by_cases h1 : draws 1 < 3/10 <;>
      simp [h0, h1, (hd 2).2]
  refine ⟨?_, ?_, ?_⟩
  · rw [processPaymentWithRetry, processAux_success]; exact hsucc
  · rw [processPaymentWithRetry, processAux_status, hsucc]; rfl
  · have hh : (processPaymentWithRetry paymentGateways amount txn draws times).retry_history
        = attemptsList draws times paymentGateways 0 := by
      rw [processPaymentWithRetry, processAux_history]; simp
    rw [hh]
    exact attemptsList_length_le draws times paymentGateways 0

/-- Witness for C10 with the constant draw 1/2. -/
theorem claim_C10_upi_always_succeeds_witness :
    (∀ i : Nat, 0 ≤ (fun _ : Nat => (1 : ℚ)/2) i ∧ (fun _ : Nat => (1 : ℚ)/2) i < 1)
    ∧ (processPaymentWithRetry paymentGateways 3950 7 (fun _ => 1/2) (fun _ => 0)).success = true := by
  have hd : ∀ i : Nat, 0 ≤ (fun _ : Nat => (1 : ℚ)/2) i ∧ (fun _ : Nat => (1 : ℚ)/2) i < 1 := by
    intro i; constructor <;> norm_num
  exact ⟨hd, (claim_C10_upi_always_succeeds 3950 7 (fun _ => 1/2) (fun _ => 0) hd).1⟩

-- ===========================================================================
-- Dispatcher lemmas (claims C1, C3, C6, C8)
-- ===========================================================================

/-- The audit-log entry an agent's wrapped run leaves behind: the
`processing` entry updated once to its terminal `success`/`failed` form. -/
def entryOf (name : String) (outcome : ExecOutcome) : Value :=
  match outcome with
  | .ok r => .vDict [("agent", .vStr name), ("status", .vStr "success"), ("result", r)]
  | .error e => .vDict [("agent", .vStr name), ("status", .vStr "failed"), ("error", .vStr e)]

/-- The value an agent's wrapped run returns to the gather: its result, or
`{}` after a failure. -/
def resultOf (outcome : ExecOutcome) : Value :=
  match outcome with
  | .ok r => r
  | .error _ => .vDict []

theorem getCalls_setCalls (st : StateDict) (l : List Value) :
    getCalls (setCalls st l) = l := by
  simp [getCalls, setCalls]

theorem setCalls_setCalls (st : StateDict) (l l' : List Value) :
    setCalls (setCalls st l) l' = setCalls st l' := by
  simp [setCalls, setKey_setKey]

theorem modifyLast_append (f : Value → Value) (l : List Value) (x : Value) :
    modifyLast f (l ++ [x]) = l ++ [f x] := by
  induction l with
  | nil => rfl
  | cons a l ih =>
    cases l with
    | nil => rfl
    | cons b l => simpa [modifyLast] using ih

theorem runAgent_eq (name : String) (outcome : ExecOutcome) (st : StateDict)
    (cs : List Value) (h : sGet st "agent_calls" = some (.vList cs)) :
    runAgent name outcome st = (setCalls st (cs ++ [entryOf name outcome]), resultOf outcome) := by
  have hcalls : getCalls st = cs := by simp [getCalls, h]
  cases outcome with
  | ok r =>
    simp only [runAgent, appendCall, updateLastCall, hcalls, getCalls_setCalls,
      setCalls_setCalls, modifyLast_append, entryOf, resultOf]
    rfl
  | error e =>
    simp only [runAgent, appendCall, updateLastCall, hcalls, getCalls_setCalls,
      setCalls_setCalls, modifyLast_append, entryOf, resultOf]
    rfl

theorem runAll_eq (behaviors : List (String × ExecOutcome)) :
    ∀ (st : StateDict) (cs : List Value), sGet st "agent_calls" = some (.vList cs) →
      runAll st behaviors
        = (setCalls st (cs ++ behaviors.map (fun b => entryOf b.1 b.2)),
           behaviors.map (fun b => resultOf b.2)) := by
  induction behaviors with
  | nil =>
    intro st cs h
    simp only [runAll, List.map_nil, List.append_nil]
    have : setCalls st cs = st := by
      simp only [setCalls]
      induction st with
      | nil => simp [sGet] at h
      | cons kv rest ih =>
        obtain ⟨k', v'⟩ := kv
        by_cases hk : k' = "agent_calls"
        · subst hk
          simp [sGet] at h
          simp [setKey, h]
        · simp [sGet, hk] at h
          simp [setKey, hk, ih h]
    rw [this]
  | cons b bs ih =>
    intro st cs h
    simp only [runAll, runAgent_eq b.1 b.2 st cs h]
    rw [ih (setCalls st (cs ++ [entryOf b.1 b.2])) (cs ++ [entryOf b.1 b.2])
      (by simp [setCalls])]
    simp [setCalls_setCalls]

/-- `call_agents_node`, characterised: the audit log receives one terminal
entry per dispatched agent in task order, and the returned results are merged
in the same order. -/
theorem callAgentsNode_eq (behaviors : List (String × ExecOutcome)) (st : StateDict)
    (cs : List Value) (h : sGet st "agent_calls" = some (.vList cs)) :
    callAgentsNode behaviors st
      = mergeAll (setCalls st (cs ++ behaviors.map (fun b => entryOf b.1 b.2)))
          (behaviors.map (fun b => resultOf b.2)) := by
  simp only [callAgentsNode, runAll_eq behaviors st cs h]

theorem mergeAll_append (st : StateDict) (xs ys : List Value) :
    mergeAll st (xs ++ ys) = (mergeAll st xs).bind (fun s => mergeAll s ys) := by
  induction xs generalizing st with
  | nil => rfl
  | cons r rs ih =>
    by_cases hr : truthy r
    · cases r with
      | vDict kvs => simp [mergeAll, hr, ih]
      | vNone => simp [truthy] at hr
      | vStr s => simp only [List.cons_append, mergeAll, hr, if_pos]; rfl
      | vNum q => simp only [List.cons_append, mergeAll, hr, if_pos]; rfl
      | vBool b => simp only [List.cons_append, mergeAll, hr, if_pos]; rfl
      | vList l => simp only [List.cons_append, mergeAll, hr, if_pos]; rfl
    · simp [mergeAll, hr, ih]

theorem mergeAll_skip_falsy (st : StateDict) (r : Value) (rs : List Value)
    (h : truthy r = false) : mergeAll st (r :: rs) = mergeAll st rs := by
  simp [mergeAll, h]

/-- Whether a merged value would write the key `k`. -/
def hasKey (v : Value) (k : String) : Bool :=
  match v with
  | .vDict d => d.any (fun kv => kv.1 = k)
  | _ => false

theorem sGet_dictUpdate_not_mem (k : String) :
    ∀ (d : List (String × Value)) (st : StateDict), d.any (fun kv => kv.1 = k) = false →
      sGet (dictUpdate st d) k = sGet st k := by
  intro d
  induction d with
  | nil => intro st _; rfl
  | cons kv d ih =>
    intro st h
    simp only [List.any_cons, Bool.or_eq_false_iff] at h
    obtain ⟨h1, h2⟩ := h
    have hne : kv.1 ≠ k := by simpa using h1
    show sGet (dictUpdate (setKey st kv.1 kv.2) d) k = sGet st k
    rw [ih _ h2, sGet_setKey_ne _ _ hne]

/-- If a key ends the update inside the dict (and is not overwritten later in
the same dict), the merged state holds its value. -/
theorem sGet_dictUpdate_last (k : String) (v : Value) (pre post : List (String × Value))
    (st : StateDict) (h : post.any (fun kv => kv.1 = k) = false) :
    sGet (dictUpdate st (pre ++ (k, v) :: post)) k = some v := by
  have : dictUpdate st (pre ++ (k, v) :: post)
      = dictUpdate (setKey (dictUpdate st pre) k v) post := by
    simp [dictUpdate, List.foldl_append]
  rw [this, sGet_dictUpdate_not_mem k post _ h, sGet_setKey_self]

/-- Merging values that never write `k` leaves `k` unchanged. -/
theorem mergeAll_sGet_of_avoids (k : String) :
    ∀ (rs : List Value) (st s' : StateDict), mergeAll st rs = .ok s' →
      (∀ r ∈ rs, hasKey r k = false) → sGet s' k = sGet st k := by
  intro rs
  induction rs with
  | nil => intro st s' hok _; cases hok; rfl
  | cons r rs ih =>
    intro st s' hok havoid
    by_cases hr : truthy r
    · cases r with
      | vDict kvs =>
        simp only [mergeAll, hr, if_pos] at hok
        have := ih _ _ hok (fun r hrmem => havoid r (List.mem_cons_of_mem _ hrmem))
        rw [this, sGet_dictUpdate_not_mem k kvs st
          (by simpa [hasKey] using havoid _ (List.mem_cons_self _ _))]
      | vNone => simp [truthy] at hr
      | vStr s => simp [mergeAll, hr] at hok
      | vNum q => simp [mergeAll, hr] at hok
      | vBool b => simp [mergeAll, hr] at hok
      | vList l => simp [mergeAll, hr] at hok
    · rw [mergeAll_skip_falsy st r rs (by simpa using hr)] at hok
      exact ih _ _ hok (fun r hrmem => havoid r (List.mem_cons_of_mem _ hrmem))

-- ===========================================================================
-- Per-agent result-key lemmas: no agent result ever writes the audit log or
-- a per-agent result slot (except `recommendations`, written only by the
-- recommendation agent)
-- ===========================================================================

/-- The state keys agent results must never write for the dispatcher's merge
to leave the audit log and the non-recommendation result slots untouched. -/
def nonRecProtected : List String :=
  ["agent_calls", "inventory_status", "payment_status", "fulfillment_info",
   "loyalty_info", "support_info"]

/-- The five result slots other than `recommendations`. -/
def fiveSlotKeys : List String :=
  ["inventory_status", "payment_status", "fulfillment_info", "loyalty_info", "support_info"]

theorem recExecute_avoids (products : List Product) (liked : List String)
    (cart : List CartItem) (request : String) :
    ∀ k ∈ nonRecProtected, hasKey (recExecute products liked cart request) k = false := by
  intro k hk
  fin_cases hk <;> rfl

theorem recExecute_has_recommendations (products : List Product) (liked : List String)
    (cart : List CartItem) (request : String) :
    hasKey (recExecute products liked cart request) "recommendations" = true := rfl

theorem checkStock_avoids (stores : List Store) (productsMap : List (String × Product))
    (productId size location : String) :
    ∀ k ∈ "recommendations" :: nonRecProtected,
      hasKey (checkStock stores productsMap productId size location) k = false := by
  intro k hk
  fin_cases hk <;> (simp only [checkStock]; split_ifs <;> rfl)

theorem invExecute_avoids (stores : List Store) (productsMap : List (String × Product))
    (request : String) (cart : List CartItem) (location : String) :
    ∀ k ∈ "recommendations" :: nonRecProtected,
      hasKey (invExecute stores productsMap request cart location) k = false := by
  intro k hk
  have hcs : ∀ pid sz, hasKey (checkStock stores productsMap pid sz location) k = false :=
    fun pid sz => checkStock_avoids stores productsMap pid sz location k hk
  fin_cases hk <;>
    (simp only [invExecute]; split_ifs <;> cases cart <;> first | rfl | exact hcs _ _)

theorem paymentExecute_avoids (request : String) (cart : List CartItem) (txn : Nat)
    (draws times : Nat → ℚ) :
    ∀ k ∈ "recommendations" :: nonRecProtected,
      hasKey (paymentExecute request cart txn draws times) k = false := by
  intro k hk
  fin_cases hk <;>
    (simp only [paymentExecute, PaymentResult.toDict]; split_ifs <;> rfl)

theorem fulfillExecute_avoids (cart : List CartItem) (location : String) :
    ∀ k ∈ "recommendations" :: nonRecProtected,
      hasKey (fulfillExecute cart location) k = false := by
  intro k hk
  fin_cases hk <;> (simp only [fulfillExecute]; split_ifs <;> rfl)

theorem loyaltyExecute_avoids (customers : List (String × Customer)) (customerId : String)
    (cart : List CartItem) :
    ∀ k ∈ "recommendations" :: nonRecProtected,
      hasKey (loyaltyExecute customers customerId cart) k = false := by
  intro k hk
  fin_cases hk <;> rfl

theorem supportExecute_avoids (request : String) :
    ∀ k ∈ "recommendations" :: nonRecProtected,
      hasKey (supportExecute request) k = false := by
  intro k hk
  fin_cases hk <;> (simp only [supportExecute]; split_ifs <;> rfl)

theorem mem_ite_singleton {α : Type} {c : Bool} {x b : α}
    (h : b ∈ (if c = true then [x] else [])) : b = x := by
  split at h
  · simpa using h
  · simp at h

theorem mem_nonRecBehaviors (inp : RunInput) (env : Env) (ids : List String)
    (b : String × ExecOutcome) (hb : b ∈ nonRecBehaviors inp env ids) :
    b = ("Inventory Agent", Except.ok (invExecute env.stores env.invProducts inp.current_request inp.cart inp.location))
    ∨ b = ("Payment Agent", Except.ok (paymentExecute inp.current_request inp.cart env.txn env.draws env.times))
    ∨ b = ("Fulfillment Agent", Except.ok (fulfillExecute inp.cart inp.location))
    ∨ b = ("Loyalty Agent", Except.ok (loyaltyExecute env.customers inp.customer_id inp.cart))
    ∨ b = ("Support Agent", Except.ok (supportExecute inp.current_request)) := by
  simp only [nonRecBehaviors, List.mem_append] at hb
  rcases hb with (((hb | hb) | hb) | hb) | hb
  · exact Or.inl (mem_ite_singleton hb)
  · exact Or.inr (Or.inl (mem_ite_singleton hb))
  · exact Or.inr (Or.inr (Or.inl (mem_ite_singleton hb)))
  · exact Or.inr (Or.inr (Or.inr (Or.inl (mem_ite_singleton hb))))
  · exact Or.inr (Or.inr (Or.inr (Or.inr (mem_ite_singleton hb))))

theorem mem_realBehaviors (inp : RunInput) (env : Env) (ids : List String)
    (b : String × ExecOutcome) (hb : b ∈ realBehaviors inp env ids) :
    b = ("Recommendation Agent", Except.ok (recExecute env.recProducts inp.liked_products inp.cart inp.current_request))
    ∨ b ∈ nonRecBehaviors inp env ids := by
  simp only [realBehaviors, List.mem_append] at hb
  rcases hb with hb | hb
  · exact Or.inl (mem_ite_singleton hb)
  · exact Or.inr hb

/-- No result of a non-recommendation agent writes the audit log, the
`recommendations` slot, or any of the five other result slots. -/
theorem nonRecResults_avoid (inp : RunInput) (env : Env) (ids : List String) :
    ∀ r ∈ (nonRecBehaviors inp env ids).map (fun b => resultOf b.2),
      ∀ k ∈ "recommendations" :: nonRecProtected, hasKey r k = false := by
  intro r hr k hk
  simp only [List.mem_map] at hr
  obtain ⟨b, hb, rfl⟩ := hr
  rcases mem_nonRecBehaviors inp env ids b hb with h | h | h | h | h <;> subst h
  · exact invExecute_avoids _ _ _ _ _ k hk
  · exact paymentExecute_avoids _ _ _ _ _ k hk
  · exact fulfillExecute_avoids inp.cart inp.location k hk
  · exact loyaltyExecute_avoids _ _ _ k hk
  · exact supportExecute_avoids _ k hk

/-- No agent result (the recommendation agent's included) writes the audit
log or any of the five non-recommendation result slots. -/
theorem realResults_avoid (inp : RunInput) (env : Env) (ids : List String) :
    ∀ r ∈ (realBehaviors inp env ids).map (fun b => resultOf b.2),
      ∀ k ∈ nonRecProtected, hasKey r k = false := by
  intro r hr k hk
  simp only [List.mem_map] at hr
  obtain ⟨b, hb, rfl⟩ := hr
  rcases mem_realBehaviors inp env ids b hb with h | h
  · subst h
    exact recExecute_avoids env.recProducts inp.liked_products inp.cart
      inp.current_request k hk
  · exact nonRecResults_avoid inp env ids _
      (List.mem_map.mpr ⟨b, h, rfl⟩) k (List.mem_cons_of_mem _ hk)

/-- The recommendation agent's result dict, shaped: the `recommendations` key
first, then `total_found`. -/
theorem recExecute_shape (products : List Product) (liked : List String)
    (cart : List CartItem) (request : String) :
    ∃ x y, recExecute products liked cart request
      = .vDict [("recommendations", .vList x), ("total_found", y)] :=
  ⟨_, _, rfl⟩

-- ===========================================================================
-- Unique-writer merge lemmas and pipeline state lemmas
-- ===========================================================================

/-- `r`, when merged, sets `k` to `v` (it binds `k` to `v`, with no later
binding of `k` in the same dict). -/
def writesKey (r : Value) (k : String) (v : Value) : Prop :=
  ∃ pre post, r = .vDict (pre ++ (k, v) :: post) ∧ post.any (fun kv => kv.1 = k) = false

theorem writesKey_hasKey {r : Value} {k : String} {v : Value} (h : writesKey r k v) :
    hasKey r k = true := by
  obtain ⟨pre, post, rfl, _⟩ := h
  simp [hasKey]

theorem truthy_of_writesKey {r : Value} {k : String} {v : Value} (h : writesKey r k v) :
    truthy r = true := by
  obtain ⟨pre, post, rfl, _⟩ := h
  cases pre <;> simp [truthy]

/-- Once `k` holds `v` and every remaining merge either avoids `k` or
rewrites it to `v`, `k` still holds `v` after the merge. -/
theorem mergeAll_sGet_keep (k : String) (v : Value) :
    ∀ (rs : List Value) (st s' : StateDict), mergeAll st rs = .ok s' →
      sGet st k = some v →
      (∀ r ∈ rs, hasKey r k = false ∨ writesKey r k v) →
      sGet s' k = some v := by
  intro rs
  induction rs with
  | nil => intro st s' hok hst _; cases hok; exact hst
  | cons r rs ih =>
    intro st s' hok hst hall
    by_cases hr : truthy r
    · cases r with
      | vDict d =>
        simp only [mergeAll, hr, if_pos] at hok
        rcases hall _ (List.mem_cons_self _ _) with havoid | hwrite
        · refine ih _ _ hok ?_ (fun r hm => hall r (List.mem_cons_of_mem _ hm))
          rw [sGet_dictUpdate_not_mem k d st (by simpa [hasKey] using havoid)]
          exact hst
        · obtain ⟨pre, post, heq, hpost⟩ := hwrite
          cases heq
          refine ih _ _ hok ?_ (fun r hm => hall r (List.mem_cons_of_mem _ hm))
          exact sGet_dictUpdate_last k v pre post st hpost
      | vNone => simp [truthy] at hr
      | vStr s => simp [mergeAll, hr] at hok
      | vNum q => simp [mergeAll, hr] at hok
      | vBool b => simp [mergeAll, hr] at hok
      | vList l => simp [mergeAll, hr] at hok
    · rw [mergeAll_skip_falsy st r rs (by simpa using hr)] at hok
      exact ih _ _ hok hst (fun r hm => hall r (List.mem_cons_of_mem _ hm))

/-- If exactly the writers of `k` in the merged list all write `v` and at
least one of them occurs, the merged state holds `v` at `k`. -/
theorem mergeAll_sGet_writer (k : String) (v : Value) :
    ∀ (rs : List Value) (st s' : StateDict), mergeAll st rs = .ok s' →
      (∀ r ∈ rs, hasKey r k = false ∨ writesKey r k v) →
      (∃ r ∈ rs, writesKey r k v) →
      sGet s' k = some v := by
  intro rs
  induction rs with
  | nil => intro st s' _ _ hex; simp at hex
  | cons r rs ih =>
    intro st s' hok hall hex
    rcases hall _ (List.mem_cons_self _ _) with havoid | hwrite
    · have hex' : ∃ r ∈ rs, writesKey r k v := by
        obtain ⟨r0, hr0, hw0⟩ := hex
        rcases List.mem_cons.mp hr0 with rfl | hr0
        · exact absurd (writesKey_hasKey hw0) (by simp [havoid])
        · exact ⟨r0, hr0, hw0⟩
      by_cases hr : truthy r
      · cases r with
        | vDict d =>
          simp only [mergeAll, hr, if_pos] at hok
          exact ih _ _ hok (fun r hm => hall r (List.mem_cons_of_mem _ hm)) hex'
        | vNone => simp [truthy] at hr
        | vStr s => simp [mergeAll, hr] at hok
        | vNum q => simp [mergeAll, hr] at hok
        | vBool b => simp [mergeAll, hr] at hok
        | vList l => simp [mergeAll, hr] at hok
      · rw [mergeAll_skip_falsy st r rs (by simpa using hr)] at hok
        exact ih _ _ hok (fun r hm => hall r (List.mem_cons_of_mem _ hm)) hex'
    · have hr : truthy r = true := truthy_of_writesKey hwrite
      obtain ⟨pre, post, heq, hpost⟩ := hwrite
      cases heq
      simp only [mergeAll, hr, if_pos] at hok
      exact mergeAll_sGet_keep k v rs _ s' hok
        (sGet_dictUpdate_last k v pre post st hpost)
        (fun r hm => hall r (List.mem_cons_of_mem _ hm))

theorem contains_iff_mem {l : List String} {a : String} : l.contains a = true ↔ a ∈ l :=
  List.elem_iff

/-- The state after `orchestrator_node`: one orchestrator audit entry. -/
theorem orchestratorNode_calls (inp : RunInput) :
    sGet (orchestratorNode inp (createInitialState inp)) "agent_calls"
      = some (.vList [orchestratorEntry
          (agentsNeeded inp.current_request inp.cart inp.liked_products)]) := by
  simp only [orchestratorNode, appendCall, setCalls]
  rw [sGet_setKey_self]
  have : getCalls (setKey (createInitialState inp) "agents_needed"
      (.vList ((agentsNeeded inp.current_request inp.cart inp.liked_products).map Value.vStr)))
      = [] := by
    unfold getCalls
    rw [sGet_setKey_ne _ _ (by decide)]
    rfl
  rw [this]
  rfl

/-- `orchestrator_node` leaves all six result slots at their initial `None`. -/
theorem orchestratorNode_slots (inp : RunInput) :
    ∀ k ∈ "recommendations" :: fiveSlotKeys,
      sGet (orchestratorNode inp (createInitialState inp)) k = some .vNone := by
  intro k hk
  fin_cases hk <;>
    (simp only [orchestratorNode, appendCall, setCalls]
     rw [sGet_setKey_ne _ _ (by decide), sGet_setKey_ne _ _ (by decide)]
     rfl)

theorem fiveSlot_mem_nonRec : ∀ k ∈ fiveSlotKeys, k ∈ nonRecProtected := by decide

theorem fiveSlot_ne_agent_calls : ∀ k ∈ fiveSlotKeys, ("agent_calls" : String) ≠ k := by decide

/-- C8. A dispatch run of the registered agents assigns among the six result
slots only `recommendations` (and only when the recommendation agent was
selected): the other five slots still hold their initial `None` after the
merge, because no agent's `_execute` result carries their keys. -/
theorem claim_C8_slots_untouched (inp : RunInput) (env : Env) (ids : List String)
    (run : Except String StateDict)
    (hrun : run = callAgentsNode (realBehaviors inp env ids)
      (orchestratorNode inp (createInitialState inp)))
    (hok : exceptOk run = true) :
    (∀ k ∈ fiveSlotKeys, lookOf run k = some .vNone)
    ∧ ("recommendation" ∈ ids → ∃ x, lookOf run "recommendations" = some (.vList x))
    ∧ ("recommendation" ∉ ids → lookOf run "recommendations" = some .vNone) := by
  rcases hr : run with e | st'
  · rw [hr] at hok; simp [exceptOk] at hok
  · rw [hr] at hrun
    rw [callAgentsNode_eq (realBehaviors inp env ids) _ _ (orchestratorNode_calls inp)] at hrun
    have hmer := hrun.symm
    refine ⟨?_, ?_, ?_⟩
    · intro k hk
      show sGet st' k = some Value.vNone
      rw [mergeAll_sGet_of_avoids k _ _ _ hmer
        (fun r hm => realResults_avoid inp env ids r hm k (fiveSlot_mem_nonRec k hk))]
      rw [show setCalls (orchestratorNode inp (createInitialState inp)) _
          = setKey (orchestratorNode inp (createInitialState inp)) "agent_calls" _ from rfl]
      rw [sGet_setKey_ne _ _ (fiveSlot_ne_agent_calls k hk)]
      exact orchestratorNode_slots inp k (List.mem_cons_of_mem _ hk)
    · intro hmem
      have hc : ids.contains "recommendation" = true := contains_iff_mem.mpr hmem
      obtain ⟨x, y, hshape⟩ := recExecute_shape env.recProducts inp.liked_products
        inp.cart inp.current_request
      have hrb : (realBehaviors inp env ids).map (fun b => resultOf b.2)
          = recExecute env.recProducts inp.liked_products inp.cart inp.current_request
            :: (nonRecBehaviors inp env ids).map (fun b => resultOf b.2) := by
        simp [realBehaviors, hc, hmem, resultOf]
      rw [hrb] at hmer
      have hwrite : writesKey (recExecute env.recProducts inp.liked_products inp.cart
          inp.current_request) "recommendations" (.vList x) :=
        ⟨[], [("total_found", y)], by rw [hshape]; rfl, rfl⟩
      refine ⟨x, ?_⟩
      show sGet st' "recommendations" = some (Value.vList x)
      refine mergeAll_sGet_writer "recommendations" (.vList x) _ _ _ hmer ?_
        ⟨_, List.mem_cons_self _ _, hwrite⟩
      intro r hm
      rcases List.mem_cons.mp hm with rfl | hm
      · exact Or.inr hwrite
      · exact Or.inl (nonRecResults_avoid inp env ids r hm "recommendations"
          (List.mem_cons_self _ _))
    · intro hni
      have hc : ids.contains "recommendation" = false := by
        cases hcc : ids.contains "recommendation"
        · rfl
        · exact absurd (contains_iff_mem.mp hcc) hni
      have hrb : (realBehaviors inp env ids).map (fun b => resultOf b.2)
          = (nonRecBehaviors inp env ids).map (fun b => resultOf b.2) := by
        simp [realBehaviors, hc, hni]
      rw [hrb] at hmer
      show sGet st' "recommendations" = some Value.vNone
      rw [mergeAll_sGet_of_avoids "recommendations" _ _ _ hmer
        (fun r hm => nonRecResults_avoid inp env ids r hm "recommendations"
          (List.mem_cons_self _ _))]
      rw [show setCalls (orchestratorNode inp (createInitialState inp)) _
          = setKey (orchestratorNode inp (createInitialState inp)) "agent_calls" _ from rfl]
      rw [sGet_setKey_ne _ _ (by decide)]
      exact orchestratorNode_slots inp "recommendations" (List.mem_cons_self _ _)

/-- A concrete run input and environment for witnesses: a recommendation
request over a catalog with integral match scores. -/
def witnessInput : RunInput :=
  { session_id := "s1", customer_id := "CUST001", channel := "web",
    current_request := "recommend a tie", messages := [], liked_products := [],
    cart := [], location := "Mumbai" }

def witnessEnv : Env :=
  { recProducts := [⟨"P1", "Alpha Tie", "VH", 10, "Ties", ["formal"], 1⟩,
      ⟨"P2", "Beta Belt", "VH", 20, "Belts", [], 0⟩],
    stores := mockStores, invProducts := [], customers := mockCustomers,
    txn := 1, draws := fun _ => 1/2, times := fun _ => 0 }

/-- Witness for C8: a run selecting the recommendation and loyalty agents. -/
theorem claim_C8_slots_untouched_witness :
    exceptOk (callAgentsNode
        (realBehaviors witnessInput witnessEnv ["recommendation", "loyalty"])
        (orchestratorNode witnessInput (createInitialState witnessInput))) = true
    ∧ lookOf (callAgentsNode
        (realBehaviors witnessInput witnessEnv ["recommendation", "loyalty"])
        (orchestratorNode witnessInput (createInitialState witnessInput)))
        "payment_status" = some .vNone
    ∧ (∃ x, lookOf (callAgentsNode
        (realBehaviors witnessInput witnessEnv ["recommendation", "loyalty"])
        (orchestratorNode witnessInput (createInitialState witnessInput)))
        "recommendations" = some (.vList x)) := by
  have h := claim_C8_slots_untouched witnessInput witnessEnv ["recommendation", "loyalty"]
    _ rfl (by rfl)
  exact ⟨by rfl, h.1 "payment_status" (by decide), h.2.1 (by decide)⟩

-- ===========================================================================
-- Claim C3: audit-log entry count
-- ===========================================================================

/-- How many of the six registered agents the selection names. -/
def selectedCount (ids : List String) : Nat :=
  (if ids.contains "recommendation" then 1 else 0)
  + (if ids.contains "inventory" then 1 else 0)
  + (if ids.contains "payment" then 1 else 0)
  + (if ids.contains "fulfillment" then 1 else 0)
  + (if ids.contains "loyalty" then 1 else 0)
  + (if ids.contains "support" then 1 else 0)

theorem realBehaviors_length (inp : RunInput) (env : Env) (ids : List String) :
    (realBehaviors inp env ids).length = selectedCount ids := by
  simp only [realBehaviors, nonRecBehaviors, selectedCount, List.length_append]
  split_ifs <;> rfl

theorem selectedCount_selectCore (b1 b2 b3 b4 b5 b6 b7 : Bool) :
    selectedCount (selectCore b1 b2 b3 b4 b5 b6 b7)
      = (selectCore b1 b2 b3 b4 b5 b6 b7).length := by
  revert b1 b2 b3 b4 b5 b6 b7; decide

/-- The dispatcher launches exactly one task per classifier-selected id. -/
theorem realBehaviors_length_agentsNeeded (inp : RunInput) (env : Env) :
    (realBehaviors inp env (agentsNeeded inp.current_request inp.cart inp.liked_products)).length
      = (agentsNeeded inp.current_request inp.cart inp.liked_products).length := by
  rw [realBehaviors_length]
  exact selectedCount_selectCore _ _ _ _ _ _ _

/-- A run input whose request dispatches the payment and loyalty agents. -/
def c3Input : RunInput :=
  { session_id := "s1", customer_id := "CUST001", channel := "web",
    current_request := "buy shoes", messages := [], liked_products := [],
    cart := [], location := "Mumbai" }

-- ===========================================================================
-- Claim C1: merge-order (in)dependence
-- ===========================================================================

/-- C1 counterexample: for the "buy shoes" run both dispatched agents
(payment, loyalty) return a `status` key, so their result writes collide and
the merged state depends on the merge order: payment-then-loyalty leaves
`status = "calculated"`, loyalty-then-payment leaves `status = "pending"`. -/
theorem claim_C1_counterexample :
    hasKey (paymentExecute "buy shoes" [] 1 (fun _ => 1/2) (fun _ => 0)) "status" = true
    ∧ hasKey (loyaltyExecute mockCustomers "CUST001" []) "status" = true
    ∧ lookOf (mergeAll (createInitialState c3Input)
        [paymentExecute "buy shoes" [] 1 (fun _ => 1/2) (fun _ => 0),
         loyaltyExecute mockCustomers "CUST001" []]) "status" = some (.vStr "calculated")
    ∧ lookOf (mergeAll (createInitialState c3Input)
        [loyaltyExecute mockCustomers "CUST001" [],
         paymentExecute "buy shoes" [] 1 (fun _ => 1/2) (fun _ => 0)]) "status"
        = some (.vStr "pending")
    ∧ Value.vStr "calculated" ≠ Value.vStr "pending" := by
  refine ⟨rfl, rfl, rfl, rfl, ?_⟩
  intro h
  injection h with h
  exact absurd h (by decide)

/-- C1 amended: the per-agent audit entries are disjoint and, restricted to
the six result slots, the merge is order-independent (only `recommendations`
is ever written, by a single agent); the full merged state, however, is
order-dependent because results share keys such as `status`. -/
theorem claim_C1_amended (inp : RunInput) (env : Env) (ids : List String)
    (st : StateDict) (rs : List Value)
    (hperm : rs.Perm ((realBehaviors inp env ids).map (fun b => resultOf b.2)))
    (hok1 : exceptOk (mergeAll st rs) = true)
    (hok2 : exceptOk
      (mergeAll st ((realBehaviors inp env ids).map (fun b => resultOf b.2))) = true) :
    (∀ k ∈ fiveSlotKeys,
      lookOf (mergeAll st rs) k
        = lookOf (mergeAll st ((realBehaviors inp env ids).map (fun b => resultOf b.2))) k)
    ∧ lookOf (mergeAll st rs) "recommendations"
        = lookOf (mergeAll st ((realBehaviors inp env ids).map
            (fun b => resultOf b.2))) "recommendations" := by
  rcases hm1 : mergeAll st rs with e1 | s1
  · rw [hm1] at hok1; simp [exceptOk] at hok1
  rcases hm2 : mergeAll st ((realBehaviors inp env ids).map (fun b => resultOf b.2))
      with e2 | s2
  · rw [hm2] at hok2; simp [exceptOk] at hok2
  have horig_avoid : ∀ k ∈ nonRecProtected,
      ∀ r ∈ (realBehaviors inp env ids).map (fun b => resultOf b.2), hasKey r k = false :=
    fun k hk r hr => realResults_avoid inp env ids r hr k hk
  refine ⟨?_, ?_⟩
  · intro k hk
    simp only [hm2, lookOf]
    rw [mergeAll_sGet_of_avoids k _ _ _ hm1
      (fun r hr => horig_avoid k (fiveSlot_mem_nonRec k hk) r (hperm.subset hr))]
    rw [mergeAll_sGet_of_avoids k _ _ _ hm2
      (horig_avoid k (fiveSlot_mem_nonRec k hk))]
  · simp only [hm2, lookOf]
    by_cases hmem : "recommendation" ∈ ids
    · have hc : ids.contains "recommendation" = true := contains_iff_mem.mpr hmem
      obtain ⟨x, y, hshape⟩ := recExecute_shape env.recProducts inp.liked_products
        inp.cart inp.current_request
      have hwrite : writesKey (recExecute env.recProducts inp.liked_products inp.cart
          inp.current_request) "recommendations" (.vList x) :=
        ⟨[], [("total_found", y)], by rw [hshape]; rfl, rfl⟩
      have hrb : (realBehaviors inp env ids).map (fun b => resultOf b.2)
          = recExecute env.recProducts inp.liked_products inp.cart inp.current_request
            :: (nonRecBehaviors inp env ids).map (fun b => resultOf b.2) := by
        simp [realBehaviors, hc, hmem, resultOf]
      have hall : ∀ r ∈ (realBehaviors inp env ids).map (fun b => resultOf b.2),
          hasKey r "recommendations" = false
          ∨ writesKey r "recommendations" (.vList x) := by
        intro r hr
        rw [hrb] at hr
        rcases List.mem_cons.mp hr with rfl | hr
        · exact Or.inr hwrite
        · exact Or.inl (nonRecResults_avoid inp env ids r hr "recommendations"
            (List.mem_cons_self _ _))
      have hexm : recExecute env.recProducts inp.liked_products inp.cart inp.current_request
          ∈ (realBehaviors inp env ids).map (fun b => resultOf b.2) := by
        rw [hrb]; exact List.mem_cons_self _ _
      rw [mergeAll_sGet_writer "recommendations" (.vList x) _ _ _ hm1
        (fun r hr => hall r (hperm.subset hr))
        ⟨_, (hperm.mem_iff).mpr hexm, hwrite⟩]
      rw [mergeAll_sGet_writer "recommendations" (.vList x) _ _ _ hm2 hall ⟨_, hexm, hwrite⟩]
    · have hc : ids.contains "recommendation" = false := by
        cases hcc : ids.contains "recommendation"
        · rfl
        · exact absurd (contains_iff_mem.mp hcc) hmem
      have hrb : (realBehaviors inp env ids).map (fun b => resultOf b.2)
          = (nonRecBehaviors inp env ids).map (fun b => resultOf b.2) := by
        simp [realBehaviors, hc, hmem]
      have hav : ∀ r ∈ (realBehaviors inp env ids).map (fun b => resultOf b.2),
          hasKey r "recommendations" = false := by
        intro r hr
        rw [hrb] at hr
        exact nonRecResults_avoid inp env ids r hr "recommendations" (List.mem_cons_self _ _)
      rw [mergeAll_sGet_of_avoids "recommendations" _ _ _ hm1
        (fun r hr => hav r (hperm.subset hr))]
      rw [mergeAll_sGet_of_avoids "recommendations" _ _ _ hm2 hav]

/-- Witness for C1 amended: merging the two real results of the witness run
in reversed order agrees with the dispatcher's order on the result slots. -/
theorem claim_C1_amended_witness :
    ((realBehaviors witnessInput witnessEnv ["recommendation", "loyalty"]).map
        (fun b => resultOf b.2)).reverse.Perm
      ((realBehaviors witnessInput witnessEnv ["recommendation", "loyalty"]).map
        (fun b => resultOf b.2))
    ∧ lookOf (mergeAll (createInitialState witnessInput)
        ((realBehaviors witnessInput witnessEnv ["recommendation", "loyalty"]).map
          (fun b => resultOf b.2)).reverse) "recommendations"
      = lookOf (mergeAll (createInitialState witnessInput)
          ((realBehaviors witnessInput witnessEnv ["recommendation", "loyalty"]).map
            (fun b => resultOf b.2))) "recommendations" := by
  refine ⟨List.reverse_perm _, ?_⟩
  exact (claim_C1_amended witnessInput witnessEnv ["recommendation", "loyalty"]
    (createInitialState witnessInput) _ (List.reverse_perm _) (by rfl) (by rfl)).2

-- ===========================================================================
-- Claim C7: synthesizer on a recommendations-only state
-- ===========================================================================

theorem invSection_falsy (o : Option Value) (h : truthyOpt o = false) :
    invSection o = .ok [] := by simp [invSection, h]

theorem loySection_falsy (o : Option Value) (h : truthyOpt o = false) :
    loySection o = .ok [] := by simp [loySection, h]

theorem paySection_falsy (o : Option Value) (h : truthyOpt o = false) :
    paySection o = .ok [] := by simp [paySection, h]

theorem fulSection_falsy (o : Option Value) (h : truthyOpt o = false) :
    fulSection o = .ok [] := by simp [fulSection, h]

theorem supSection_falsy (o : Option Value) (h : truthyOpt o = false) :
    supSection o = .ok [] := by simp [supSection, h]

/-- C7. On a final state whose recommendations slot holds exactly 4 items and
whose other result slots are all empty, the synthesizer emits (after the
optional greeting) the header and item lines for exactly the first 3
recommendations — name and price each — and no inventory, loyalty, payment,
fulfillment or support section. -/
theorem claim_C7_top3_recommendations (st : StateDict) (r1 r2 r3 r4 n1 p1 n2 p2 n3 p3 : Value)
    (hrec : sGet st "recommendations" = some (.vList [r1, r2, r3, r4]))
    (h1n : itemGet r1 "name" = .ok n1) (h1p : itemGet r1 "price" = .ok p1)
    (h2n : itemGet r2 "name" = .ok n2) (h2p : itemGet r2 "price" = .ok p2)
    (h3n : itemGet r3 "name" = .ok n3) (h3p : itemGet r3 "price" = .ok p3)
    (hinv : truthyOpt (sGet st "inventory_status") = false)
    (hloy : truthyOpt (sGet st "loyalty_info") = false)
    (hpay : truthyOpt (sGet st "payment_status") = false)
    (hful : truthyOpt (sGet st "fulfillment_info") = false)
    (hsup : truthyOpt (sGet st "support_info") = false) :
    synthesizeParts st
      = .ok ((if truthyOpt (sGet st "messages") then [] else [synthGreeting])
          ++ ["Based on your preferences, I found 4 items you might love:",
              recLineStr n1 p1, recLineStr n2 p2, recLineStr n3 p3]) := by
  have hl1 : recLine r1 = .ok (recLineStr n1 p1) := by simp [recLine, h1n, h1p]
  have hl2 : recLine r2 = .ok (recLineStr n2 p2) := by simp [recLine, h2n, h2p]
  have hl3 : recLine r3 = .ok (recLineStr n3 p3) := by simp [recLine, h3n, h3p]
  have hmap : mapExcept recLine ([r1, r2, r3, r4].take 3)
      = .ok [recLineStr n1 p1, recLineStr n2 p2, recLineStr n3 p3] := by
    simp [mapExcept, hl1, hl2, hl3]
  have hstr : "Based on your preferences, I found " ++ toString (4 : Nat)
      ++ " items you might love:"
      = "Based on your preferences, I found 4 items you might love:" := by decide
  have hrecs : recSection (sGet st "recommendations")
      = .ok ["Based on your preferences, I found 4 items you might love:",
          recLineStr n1 p1, recLineStr n2 p2, recLineStr n3 p3] := by
    rw [hrec]
    simp only [recSection, truthyOpt, truthy, List.isEmpty, Bool.not_false,
      if_true, hmap, List.length_cons, List.length_nil, Nat.zero_add,
      Nat.reduceAdd]
    rw [hstr]
  simp only [synthesizeParts, hrecs, invSection_falsy _ hinv, loySection_falsy _ hloy,
    paySection_falsy _ hpay, fulSection_falsy _ hful, supSection_falsy _ hsup]
  cases truthyOpt (sGet st "messages") <;> simp

/-- A concrete final state for the C7 witness: four recommendation items,
empty conversation history, all other slots `None`. -/
def c7State : StateDict :=
  [("messages", .vList []),
   ("recommendations", .vList
     [.vDict [("name", .vStr "A"), ("price", .vNum 1)],
      .vDict [("name", .vStr "B"), ("price", .vNum 2)],
      .vDict [("name", .vStr "C"), ("price", .vNum 3)],
      .vDict [("name", .vStr "D"), ("price", .vNum 4)]]),
   ("inventory_status", .vNone), ("payment_status", .vNone),
   ("fulfillment_info", .vNone), ("loyalty_info", .vNone), ("support_info", .vNone),
   ("response", .vStr "")]

/-- Witness for C7 at `c7State`. -/
theorem claim_C7_top3_recommendations_witness :
    synthesizeParts c7State
      = .ok ((if truthyOpt (sGet c7State "messages") then [] else [synthGreeting])
          ++ ["Based on your preferences, I found 4 items you might love:",
              recLineStr (.vStr "A") (.vNum 1), recLineStr (.vStr "B") (.vNum 2),
              recLineStr (.vStr "C") (.vNum 3)]) :=
  claim_C7_top3_recommendations c7State _ _ _ _ _ _ _ _ _ _
    rfl rfl rfl rfl rfl rfl rfl rfl rfl rfl rfl rfl

-- ===========================================================================
-- Claim C2: the no-agent path and the synthesizer
-- ===========================================================================

/-- A run input selecting zero agents (a pure greeting). -/
def c2Input : RunInput :=
  { session_id := "s1", customer_id := "CUST001", channel := "web",
    current_request := "hello there", messages := [], liked_products := [],
    cart := [], location := "Mumbai" }

/-- C2 counterexample: on the no-agent "hello there" run the canned greeting
reply is written by `simple_response_node` but the graph then routes through
`synthesize_response_node`, which overwrites it — the observable response is
the synthesizer's greeting, not the canned reply. -/
theorem claim_C2_counterexample :
    agentsNeeded c2Input.current_request c2Input.cart c2Input.liked_products = []
    ∧ simpleReply c2Input.current_request
        = "Hello! I'm your AI shopping assistant. I can help you find products, check availability, and complete your purchase. What are you looking for today?"
    ∧ lookOf (runPipeline c2Input mockEnv) "response" = some (.vStr synthGreeting)
    ∧ synthGreeting ≠ simpleReply c2Input.current_request :=
  ⟨rfl, rfl, rfl, by decide⟩

/-- C2 amended: when the classifier selects zero agents the run bypasses the
dispatcher (only the orchestrator's audit entry exists) and
`simple_response_node` writes the canned keyword-table reply, but the graph
then passes through `synthesize_response_node`, which overwrites the response
with its own text: the greeting on an empty conversation history, otherwise
the generic fallback. The canned reply is not the run's final response. -/
theorem claim_C2_amended (inp : RunInput) (env : Env)
    (hempty : agentsNeeded inp.current_request inp.cart inp.liked_products = []) :
    sGet (simpleResponseNode inp (orchestratorNode inp (createInitialState inp))) "response"
      = some (.vStr (simpleReply inp.current_request))
    ∧ lookOf (runPipeline inp env) "response"
        = some (.vStr (if inp.messages.isEmpty then synthGreeting else synthFallback))
    ∧ callsOf (runPipeline inp env) = some [orchestratorEntry []] := by
  have hne' : (agentsNeeded inp.current_request inp.cart inp.liked_products).isEmpty
      = true := by rw [hempty]; rfl
  have hpath : runPipeline inp env
      = synthesizeNode (simpleResponseNode inp (orchestratorNode inp (createInitialState inp))) := by
    simp [runPipeline, hne']
  have hslot : ∀ k ∈ "recommendations" :: fiveSlotKeys,
      sGet (simpleResponseNode inp (orchestratorNode inp (createInitialState inp))) k
        = some .vNone := by
    intro k hk
    fin_cases hk <;>
      (simp only [simpleResponseNode]
       rw [sGet_setKey_ne _ _ (by decide)]
       exact orchestratorNode_slots inp _ (by decide))
  have hmsgs : sGet (simpleResponseNode inp (orchestratorNode inp (createInitialState inp)))
      "messages" = some (.vList inp.messages) := by
    simp only [simpleResponseNode, orchestratorNode, appendCall, setCalls]
    rw [sGet_setKey_ne _ _ (by decide), sGet_setKey_ne _ _ (by decide),
      sGet_setKey_ne _ _ (by decide)]
    rfl
  have hr := hslot "recommendations" (by decide)
  have hi := hslot "inventory_status" (by decide)
  have hp := hslot "payment_status" (by decide)
  have hf := hslot "fulfillment_info" (by decide)
  have hl := hslot "loyalty_info" (by decide)
  have hs := hslot "support_info" (by decide)
  have hparts : synthesizeParts
      (simpleResponseNode inp (orchestratorNode inp (createInitialState inp)))
      = .ok (if inp.messages.isEmpty then [synthGreeting] else [synthFallback]) := by
    rcases hms : inp.messages with _ | ⟨m, ms⟩ <;>
      simp [synthesizeParts, hr, hi, hp, hf, hl, hs, hmsgs, hms, truthyOpt, truthy,
        recSection, invSection, loySection, paySection, fulSection, supSection]
  have hcallsS : getCalls (simpleResponseNode inp (orchestratorNode inp (createInitialState inp)))
      = [orchestratorEntry []] := by
    unfold getCalls
    simp only [simpleResponseNode]
    rw [sGet_setKey_ne _ _ (by decide)]
    rw [orchestratorNode_calls inp, hempty]
  refine ⟨?_, ?_, ?_⟩
  · simp only [simpleResponseNode]
    exact sGet_setKey_self _ _ _
  · rw [hpath]
    show lookOf ((synthesizeParts _).map _) _ = _
    rw [hparts]
    rcases inp.messages with _ | ⟨m, ms⟩
    · simp only [List.isEmpty, if_true]
      show sGet (setKey _ "response" _) "response" = _
      rw [sGet_setKey_self]
      rfl
    · simp only [List.isEmpty, if_false]
      show sGet (setKey _ "response" _) "response" = _
      rw [sGet_setKey_self]
      rfl
  · rw [hpath]
    show callsOf ((synthesizeParts _).map _) = _
    rw [hparts]
    show some (getCalls (setKey _ "response" _)) = _
    unfold getCalls
    rw [sGet_setKey_ne _ _ (by decide)]
    rw [show (sGet (simpleResponseNode inp (orchestratorNode inp (createInitialState inp)))
        "agent_calls") = some (.vList [orchestratorEntry []]) from by
      simp only [simpleResponseNode]
      rw [sGet_setKey_ne _ _ (by decide)]
      rw [orchestratorNode_calls inp, hempty]]

/-- Witness for C2 amended at the "hello there" run. -/
theorem claim_C2_amended_witness :
    agentsNeeded c2Input.current_request c2Input.cart c2Input.liked_products = []
    ∧ lookOf (runPipeline c2Input mockEnv) "response"
        = some (.vStr (if c2Input.messages.isEmpty then synthGreeting else synthFallback)) :=
  ⟨rfl, (claim_C2_amended c2Input mockEnv rfl).2.1⟩

-- ===========================================================================
-- Event-loop interleaved dispatcher (claims C3, C6)
--
-- `runAll` above sequentialises `asyncio.gather`. That is faithful for the
-- returned results and their merge (the source's post-join loop is a plain
-- sequential `for`), but not for which audit entry `BaseAgent.run`'s
-- terminal `agent_calls[-1]` update hits: under the real single-threaded
-- event loop the tasks start in creation order, a task yields only at a true
-- suspension point, and the one agent with such a point — the payment agent,
-- awaiting `asyncio.sleep` inside its retry loop — completes only after
-- every non-suspending task has finished, so its `[-1]` update lands on the
-- globally last entry. The model below embeds exactly that schedule: a first
-- pass in task order appends each `processing` entry and completes the
-- non-suspending agents in place, and a second pass applies each suspended
-- agent's terminal update to the last entry of the log. (The program has at
-- most one suspending agent per run, so the second pass's order is
-- immaterial.)
-- ===========================================================================

/-- The `processing` audit entry `BaseAgent.run` appends before `_execute`. -/
def processingEntry (name : String) : Value :=
  .vDict [("agent", .vStr name), ("status", .vStr "processing")]

/-- The key-value pairs of `BaseAgent.run`'s terminal `[-1]` update. -/
def terminalKvs (outcome : ExecOutcome) : List (String × Value) :=
  match outcome with
  | .ok r => [("status", .vStr "success"), ("result", r)]
  | .error e => [("status", .vStr "failed"), ("error", .vStr e)]

/-- One dispatched task: agent name, `_execute` outcome, and whether the
agent suspends at a true awaitable before completing (in this program: the
payment agent exactly when its retry loop runs). -/
abbrev AsyncTask := String × ExecOutcome × Bool

/-- First event-loop pass, in task creation order: every task appends its
`processing` entry; a non-suspending task also runs to completion, so its
`[-1]` update still targets its own, last-appended entry. -/
def phase1Step (st : StateDict) (b : AsyncTask) : StateDict :=
  if b.2.2 then appendCall st (processingEntry b.1)
  else (runAgent b.1 b.2.1 st).1

/-- Second pass: each suspended task resumes after every other task has
finished and applies its terminal update to `agent_calls[-1]`, whatever
entry that now is. -/
def phase2Step (st : StateDict) (b : AsyncTask) : StateDict :=
  if b.2.2 then updateLastCall st (terminalKvs b.2.1) else st

/-- The interleaved run of the dispatched tasks; `asyncio.gather` still
returns the results in task order. -/
def runAllAsync (st : StateDict) (bs : List AsyncTask) : StateDict × List Value :=
  (bs.foldl phase2Step (bs.foldl phase1Step st), bs.map (fun b => resultOf b.2.1))

/-- `call_agents_node` over the interleaved run. -/
def callAgentsNodeAsync (bs : List AsyncTask) (st : StateDict) : Except String StateDict :=
  let (st1, results) := runAllAsync st bs
  mergeAll st1 results

/-- The audit entry a task leaves after the first pass. -/
def phase1Entry (b : AsyncTask) : Value :=
  if b.2.2 then processingEntry b.1 else entryOf b.1 b.2.1

/-- The second pass over an entry list: each suspended task's terminal
update mutates whatever entry is last. -/
def applyPhase2 (bs : List AsyncTask) (l : List Value) : List Value :=
  bs.foldl (fun acc b =>
    if b.2.2 then modifyLast (applyKvs (terminalKvs b.2.1)) acc else acc) l

/-- The audit entries a dispatched task list leaves behind. -/
def asyncEntries (bs : List AsyncTask) : List Value :=
  applyPhase2 bs (bs.map phase1Entry)

/-- Whether an agent's `_execute` has a true suspension point: only the
payment agent's retry loop awaits (`asyncio.sleep`); its pending branch and
every other agent run without yielding to the event loop. -/
def suspendsFlag (inp : RunInput) (name : String) : Bool :=
  if name = "Payment Agent" then
    let r := lowerStr inp.current_request
    strContains r "pay" || strContains r "checkout" || strContains r "purchase"
  else false

/-- The real dispatched task list with its suspension flags. -/
def realBehaviorsAsync (inp : RunInput) (env : Env) (ids : List String) : List AsyncTask :=
  (realBehaviors inp env ids).map (fun b => (b.1, b.2, suspendsFlag inp b.1))

/-- One full run of the compiled graph under the interleaved dispatcher. -/
def runPipelineAsync (inp : RunInput) (env : Env) : Except String StateDict :=
  let st0 := createInitialState inp
  let st1 := orchestratorNode inp st0
  let ids := agentsNeeded inp.current_request inp.cart inp.liked_products
  if ids.isEmpty then
    synthesizeNode (simpleResponseNode inp st1)
  else do
    let st2 ← callAgentsNodeAsync (realBehaviorsAsync inp env ids) st1
    synthesizeNode st2

theorem setCalls_self (st : StateDict) (cs : List Value)
    (h : sGet st "agent_calls" = some (.vList cs)) : setCalls st cs = st := by
  simp only [setCalls]
  induction st with
  | nil => simp [sGet] at h
  | cons kv rest ih =>
    obtain ⟨k', v'⟩ := kv
    by_cases hk : k' = "agent_calls"
    · subst hk
      simp [sGet] at h
      simp [setKey, h]
    · simp [sGet, hk] at h
      simp [setKey, hk, ih h]

theorem modifyLast_length (f : Value → Value) (l : List Value) :
    (modifyLast f l).length = l.length := by
  induction l with
  | nil => rfl
  | cons e t ih =>
    cases t with
    | nil => rfl
    | cons e' t' =>
      show (e :: modifyLast f (e' :: t')).length = _
      simp [ih]

theorem modifyLast_ne_nil (f : Value → Value) {l : List Value} (h : l ≠ []) :
    modifyLast f l ≠ [] := by
  intro heq
  have hlen := modifyLast_length f l
  rw [heq] at hlen
  cases l with
  | nil => exact h rfl
  | cons e t => simp at hlen

theorem modifyLast_append_left (f : Value → Value) (cs : List Value) :
    ∀ l : List Value, l ≠ [] → modifyLast f (cs ++ l) = cs ++ modifyLast f l := by
  induction cs with
  | nil => intro l _; rfl
  | cons c cs ih =>
    intro l hl
    cases hcl : cs ++ l with
    | nil => exact absurd (List.append_eq_nil.mp hcl).2 hl
    | cons x xs =>
      have h1 : modifyLast f ((c :: cs) ++ l) = c :: modifyLast f (cs ++ l) := by
        show modifyLast f (c :: (cs ++ l)) = _
        rw [hcl]
        rfl
      rw [h1, ih l hl]
      rfl

theorem applyPhase2_cons_false (b : AsyncTask) (bs : List AsyncTask) (l : List Value)
    (hb : b.2.2 = false) : applyPhase2 (b :: bs) l = applyPhase2 bs l := by
  simp [applyPhase2, hb]

theorem applyPhase2_cons_true (b : AsyncTask) (bs : List AsyncTask) (l : List Value)
    (hb : b.2.2 = true) :
    applyPhase2 (b :: bs) l = applyPhase2 bs (modifyLast (applyKvs (terminalKvs b.2.1)) l) := by
  simp [applyPhase2, hb]

theorem applyPhase2_length (bs : List AsyncTask) :
    ∀ l : List Value, (applyPhase2 bs l).length = l.length := by
  induction bs with
  | nil => intro l; rfl
  | cons b bs ih =>
    intro l
    cases hb : b.2.2
    · rw [applyPhase2_cons_false b bs l hb]; exact ih l
    · rw [applyPhase2_cons_true b bs l hb, ih, modifyLast_length]

theorem applyPhase2_of_not_susp (bs : List AsyncTask)
    (hns : ∀ b ∈ bs, b.2.2 = false) : ∀ l : List Value, applyPhase2 bs l = l := by
  induction bs with
  | nil => intro l; rfl
  | cons b bs ih =>
    intro l
    rw [applyPhase2_cons_false b bs l (hns b (List.mem_cons_self _ _))]
    exact ih (fun b hb => hns b (List.mem_cons_of_mem _ hb)) l

theorem foldl_phase1_eq (bs : List AsyncTask) :
    ∀ (st : StateDict) (cs : List Value), sGet st "agent_calls" = some (.vList cs) →
      bs.foldl phase1Step st = setCalls st (cs ++ bs.map phase1Entry) := by
  induction bs with
  | nil =>
    intro st cs h
    simp only [List.foldl_nil, List.map_nil, List.append_nil]
    exact (setCalls_self st cs h).symm
  | cons b bs ih =>
    intro st cs h
    have hstep : phase1Step st b = setCalls st (cs ++ [phase1Entry b]) := by
      cases hb : b.2.2
      · have h2 := congrArg Prod.fst (runAgent_eq b.1 b.2.1 st cs h)
        simpa [phase1Step, phase1Entry, hb] using h2
      · simp [phase1Step, phase1Entry, hb, appendCall, getCalls, h]
    show List.foldl phase1Step (phase1Step st b) bs = _
    rw [hstep, ih (setCalls st (cs ++ [phase1Entry b])) (cs ++ [phase1Entry b])
      (by simp [setCalls]), setCalls_setCalls]
    simp

theorem foldl_phase2_eq (bs : List AsyncTask) :
    ∀ (st : StateDict) (cs l : List Value), l ≠ [] →
      bs.foldl phase2Step (setCalls st (cs ++ l)) = setCalls st (cs ++ applyPhase2 bs l) := by
  induction bs with
  | nil => intro st cs l _; rfl
  | cons b bs ih =>
    intro st cs l hl
    cases hb : b.2.2
    · have hstep : phase2Step (setCalls st (cs ++ l)) b = setCalls st (cs ++ l) := by
        simp [phase2Step, hb]
      show List.foldl phase2Step (phase2Step (setCalls st (cs ++ l)) b) bs = _
      rw [hstep, applyPhase2_cons_false b bs l hb, ih st cs l hl]
    · have hstep : phase2Step (setCalls st (cs ++ l)) b
          = setCalls st (cs ++ modifyLast (applyKvs (terminalKvs b.2.1)) l) := by
        simp only [phase2Step, hb, if_pos, updateLastCall, getCalls_setCalls,
          setCalls_setCalls]
        rw [modifyLast_append_left _ cs l hl]
      show List.foldl phase2Step (phase2Step (setCalls st (cs ++ l)) b) bs = _
      rw [hstep, applyPhase2_cons_true b bs l hb,
        ih st cs _ (modifyLast_ne_nil _ hl)]

/-- The interleaved run, characterised: the audit log receives one entry per
task, with the suspended tasks' terminal updates folded onto the last entry;
the results are unchanged, in task order. -/
theorem runAllAsync_eq (bs : List AsyncTask) (st : StateDict) (cs : List Value)
    (h : sGet st "agent_calls" = some (.vList cs)) :
    runAllAsync st bs
      = (setCalls st (cs ++ asyncEntries bs), bs.map (fun b => resultOf b.2.1)) := by
  cases bs with
  | nil =>
    simp only [runAllAsync, List.foldl_nil, asyncEntries, applyPhase2, List.map_nil,
      List.append_nil]
    rw [setCalls_self st cs h]
  | cons b bs' =>
    simp only [runAllAsync]
    rw [foldl_phase1_eq (b :: bs') st cs h,
      foldl_phase2_eq (b :: bs') st cs ((b :: bs').map phase1Entry) (by simp)]
    rfl

theorem callAgentsNodeAsync_eq (bs : List AsyncTask) (st : StateDict) (cs : List Value)
    (h : sGet st "agent_calls" = some (.vList cs)) :
    callAgentsNodeAsync bs st
      = mergeAll (setCalls st (cs ++ asyncEntries bs))
          (bs.map (fun b => resultOf b.2.1)) := by
  simp only [callAgentsNodeAsync, runAllAsync_eq bs st cs h]

theorem asyncEntries_length (bs : List AsyncTask) :
    (asyncEntries bs).length = bs.length := by
  rw [asyncEntries, applyPhase2_length]
  simp

/-- In a run where no task suspends, every agent's entry is its own terminal
entry: appended as `processing` and mutated exactly once to success/failed. -/
theorem asyncEntries_of_not_susp (bs : List AsyncTask)
    (hns : ∀ b ∈ bs, b.2.2 = false) :
    asyncEntries bs = bs.map (fun b => entryOf b.1 b.2.1) := by
  rw [asyncEntries, applyPhase2_of_not_susp bs hns]
  induction bs with
  | nil => rfl
  | cons b bs ih =>
    simp only [List.map_cons]
    rw [ih (fun b hb => hns b (List.mem_cons_of_mem _ hb))]
    rw [show phase1Entry b = entryOf b.1 b.2.1 from by
      simp [phase1Entry, hns b (List.mem_cons_self _ _)]]

/-- The `agent` field of an audit entry. -/
def entryAgent (v : Value) : Value := vGetD v "agent" .vNone

theorem entryAgent_applyKvs_terminal (o : ExecOutcome) (v : Value) :
    entryAgent (applyKvs (terminalKvs o) v) = entryAgent v := by
  cases v with
  | vDict d =>
    show entryAgent (.vDict (dictUpdate d (terminalKvs o))) = _
    simp only [entryAgent, vGetD]
    rw [sGet_dictUpdate_not_mem "agent" (terminalKvs o) d (by cases o <;> rfl)]
  | vNone => rfl
  | vStr s => rfl
  | vNum q => rfl
  | vBool b => rfl
  | vList l => rfl

theorem map_entryAgent_modifyLast (f : Value → Value)
    (hf : ∀ v, entryAgent (f v) = entryAgent v) :
    ∀ l : List Value, (modifyLast f l).map entryAgent = l.map entryAgent := by
  intro l
  induction l with
  | nil => rfl
  | cons e t ih =>
    cases t with
    | nil => simp [modifyLast, hf]
    | cons e' t' =>
      show entryAgent e :: (modifyLast f (e' :: t')).map entryAgent
          = entryAgent e :: (e' :: t').map entryAgent
      rw [ih]

theorem map_entryAgent_applyPhase2 (bs : List AsyncTask) :
    ∀ l : List Value, (applyPhase2 bs l).map entryAgent = l.map entryAgent := by
  induction bs with
  | nil => intro l; rfl
  | cons b bs ih =>
    intro l
    cases hb : b.2.2
    · rw [applyPhase2_cons_false b bs l hb]; exact ih l
    · rw [applyPhase2_cons_true b bs l hb, ih,
        map_entryAgent_modifyLast _ (entryAgent_applyKvs_terminal b.2.1)]

theorem entryAgent_phase1Entry (b : AsyncTask) : entryAgent (phase1Entry b) = .vStr b.1 := by
  rcases b with ⟨n, o, s⟩
  cases s <;> cases o <;> rfl

/-- Whatever the interleaving does to statuses, the audit log keeps exactly
one entry per dispatched task, in task order, carrying that agent's name. -/
theorem asyncEntries_agents (bs : List AsyncTask) :
    (asyncEntries bs).map entryAgent = bs.map (fun b => Value.vStr b.1) := by
  rw [asyncEntries, map_entryAgent_applyPhase2, List.map_map]
  rw [show entryAgent ∘ phase1Entry = fun b : AsyncTask => Value.vStr b.1 from
    funext entryAgent_phase1Entry]

theorem realBehaviorsAsync_results (inp : RunInput) (env : Env) (ids : List String) :
    (realBehaviorsAsync inp env ids).map (fun b => resultOf b.2.1)
      = (realBehaviors inp env ids).map (fun b => resultOf b.2) := by
  rw [realBehaviorsAsync, List.map_map]
  rfl

theorem realBehaviorsAsync_length (inp : RunInput) (env : Env) (ids : List String) :
    (realBehaviorsAsync inp env ids).length = (realBehaviors inp env ids).length := by
  simp [realBehaviorsAsync]

theorem runPipelineAsync_dispatch (inp : RunInput) (env : Env)
    (hne : (agentsNeeded inp.current_request inp.cart inp.liked_products).isEmpty = false) :
    runPipelineAsync inp env
      = (callAgentsNodeAsync
          (realBehaviorsAsync inp env
            (agentsNeeded inp.current_request inp.cart inp.liked_products))
          (orchestratorNode inp (createInitialState inp))).bind synthesizeNode := by
  simp only [runPipelineAsync, hne, Bool.false_eq_true, if_false]
  rfl

theorem synthesizeNode_calls (st st' : StateDict) (h : synthesizeNode st = .ok st') :
    getCalls st' = getCalls st := by
  simp only [synthesizeNode] at h
  cases hp : synthesizeParts st with
  | error e =>
    rw [hp] at h
    simp only [Except.map] at h
    exact Except.noConfusion h
  | ok parts =>
    rw [hp] at h
    simp only [Except.map] at h
    cases h
    unfold getCalls
    rw [sGet_setKey_ne _ _ (by decide)]

theorem realBehaviorsAsync_names (inp : RunInput) (env : Env) (ids : List String) :
    (realBehaviorsAsync inp env ids).map (fun b => Value.vStr b.1)
      = (realBehaviors inp env ids).map (fun b => Value.vStr b.1) := by
  rw [realBehaviorsAsync, List.map_map]
  rfl

theorem realBehaviorsAsync_entries (inp : RunInput) (env : Env) (ids : List String) :
    (realBehaviorsAsync inp env ids).map (fun b => entryOf b.1 b.2.1)
      = (realBehaviors inp env ids).map (fun b => entryOf b.1 b.2) := by
  rw [realBehaviorsAsync, List.map_map]
  rfl

theorem realBehaviorsAsync_not_susp (inp : RunInput) (env : Env) (ids : List String)
    (h : (strContains (lowerStr inp.current_request) "pay"
        || strContains (lowerStr inp.current_request) "checkout"
        || strContains (lowerStr inp.current_request) "purchase") = false) :
    ∀ b ∈ realBehaviorsAsync inp env ids, b.2.2 = false := by
  intro b hb
  simp only [realBehaviorsAsync, List.mem_map] at hb
  obtain ⟨b0, _, rfl⟩ := hb
  show suspendsFlag inp b0.1 = false
  unfold suspendsFlag
  by_cases hn : b0.1 = "Payment Agent"
  · rw [if_pos hn]; exact h
  · rw [if_neg hn]

theorem mergeAll_middle_falsy (st : StateDict) (r : Value) (xs ys : List Value)
    (h : truthy r = false) : mergeAll st (xs ++ r :: ys) = mergeAll st (xs ++ ys) := by
  rw [mergeAll_append, mergeAll_append]
  cases mergeAll st xs with
  | error e => rfl
  | ok s =>
    show mergeAll s (r :: ys) = mergeAll s ys
    exact mergeAll_skip_falsy s r ys h

theorem runPipelineAsync_ok_calls (inp : RunInput) (env : Env)
    (hne : (agentsNeeded inp.current_request inp.cart inp.liked_products).isEmpty = false)
    (hok : exceptOk (runPipelineAsync inp env) = true) :
    callsOf (runPipelineAsync inp env)
      = some (orchestratorEntry (agentsNeeded inp.current_request inp.cart inp.liked_products)
          :: asyncEntries (realBehaviorsAsync inp env
              (agentsNeeded inp.current_request inp.cart inp.liked_products))) := by
  have hdisp := runPipelineAsync_dispatch inp env hne
  rw [callAgentsNodeAsync_eq
    (realBehaviorsAsync inp env (agentsNeeded inp.current_request inp.cart inp.liked_products))
    (orchestratorNode inp (createInitialState inp))
    [orchestratorEntry (agentsNeeded inp.current_request inp.cart inp.liked_products)]
    (orchestratorNode_calls inp)] at hdisp
  cases hm : mergeAll
      (setCalls (orchestratorNode inp (createInitialState inp))
        ([orchestratorEntry (agentsNeeded inp.current_request inp.cart inp.liked_products)]
          ++ asyncEntries (realBehaviorsAsync inp env
              (agentsNeeded inp.current_request inp.cart inp.liked_products))))
      ((realBehaviorsAsync inp env
          (agentsNeeded inp.current_request inp.cart inp.liked_products)).map
        (fun b => resultOf b.2.1)) with
  | error e =>
    rw [hm] at hdisp
    rw [hdisp] at hok
    simp [exceptOk, Except.bind] at hok
  | ok st2 =>
    rw [hm] at hdisp
    cases hs : synthesizeNode st2 with
    | error e =>
      rw [hdisp] at hok
      simp [exceptOk, Except.bind, hs] at hok
    | ok st3 =>
      have h3 : runPipelineAsync inp env = .ok st3 := by
        rw [hdisp]
        simp [Except.bind, hs]
      have havoid : ∀ r ∈ (realBehaviorsAsync inp env
            (agentsNeeded inp.current_request inp.cart inp.liked_products)).map
            (fun b => resultOf b.2.1), hasKey r "agent_calls" = false := by
        rw [realBehaviorsAsync_results]
        intro r hr
        exact realResults_avoid inp env _ r hr "agent_calls" (by decide)
      have hcalls2 : sGet st2 "agent_calls"
          = some (.vList (orchestratorEntry
                (agentsNeeded inp.current_request inp.cart inp.liked_products)
              :: asyncEntries (realBehaviorsAsync inp env
                  (agentsNeeded inp.current_request inp.cart inp.liked_products)))) := by
        rw [mergeAll_sGet_of_avoids "agent_calls" _ _ st2 hm havoid]
        simp only [setCalls]
        rw [sGet_setKey_self]
        rfl
      have hc3 : getCalls st3
          = orchestratorEntry (agentsNeeded inp.current_request inp.cart inp.liked_products)
            :: asyncEntries (realBehaviorsAsync inp env
                (agentsNeeded inp.current_request inp.cart inp.liked_products)) := by
        rw [synthesizeNode_calls st2 st3 hs]
        unfold getCalls
        rw [hcalls2]
      rw [h3]
      show some (getCalls st3) = _
      rw [hc3]

/-- C3 counterexample: the "buy shoes" run dispatches 2 agents but ends with
3 audit entries (the orchestrator appends its own); and an agent's terminal
update targets `agent_calls[-1]`, not its own entry: a suspended payment
task's success update lands on the loyalty agent's entry (overwriting that
sibling's recorded result) while the payment entry stays `processing` — so
neither "exactly N entries" nor "the same entry is then mutated exactly once
more" holds of the program. -/
theorem claim_C3_counterexample :
    (agentsNeeded c3Input.current_request c3Input.cart c3Input.liked_products).length = 2
    ∧ (callsOf (runPipelineAsync c3Input mockEnv)).map List.length = some 3
    ∧ callsOf (callAgentsNodeAsync
        [("Payment Agent", Except.ok (.vDict [("txn", .vStr "TXN1")]), true),
         ("Loyalty Agent", Except.ok (.vDict [("points", .vNum 5)]), false)]
        [("agent_calls", .vList [])])
      = some [processingEntry "Payment Agent",
          .vDict [("agent", .vStr "Loyalty Agent"), ("status", .vStr "success"),
            ("result", .vDict [("txn", .vStr "TXN1")])]]
    ∧ ¬ ((3 : Nat) = 2) :=
  ⟨rfl, rfl, rfl, by decide⟩

/-- C3 (amended): a run that dispatches N agents ends with N+1 audit entries
— the orchestrator's own `analyzed_request` entry followed by one entry per
dispatched agent, in task order and carrying that agent's name; each agent's
entry is appended with status `processing` and its terminal `success`/`failed`
update hits `agent_calls[-1]`, which is the agent's own entry exactly when no
task suspends (no `pay`/`checkout`/`purchase` keyword, so the payment retry
loop never awaits); a suspending payment task instead leaves its own entry at
`processing` and mutates the last-appended sibling entry a second time. No
entry is ever removed. -/
theorem claim_C3_amended (inp : RunInput) (env : Env)
    (hne : (agentsNeeded inp.current_request inp.cart inp.liked_products).isEmpty = false)
    (hok : exceptOk (runPipelineAsync inp env) = true) :
    callsOf (runPipelineAsync inp env)
      = some (orchestratorEntry (agentsNeeded inp.current_request inp.cart inp.liked_products)
          :: asyncEntries (realBehaviorsAsync inp env
              (agentsNeeded inp.current_request inp.cart inp.liked_products)))
    ∧ (asyncEntries (realBehaviorsAsync inp env
          (agentsNeeded inp.current_request inp.cart inp.liked_products))).length
        = (agentsNeeded inp.current_request inp.cart inp.liked_products).length
    ∧ (asyncEntries (realBehaviorsAsync inp env
          (agentsNeeded inp.current_request inp.cart inp.liked_products))).map entryAgent
        = (realBehaviors inp env
            (agentsNeeded inp.current_request inp.cart inp.liked_products)).map
          (fun b => Value.vStr b.1)
    ∧ ((strContains (lowerStr inp.current_request) "pay"
          || strContains (lowerStr inp.current_request) "checkout"
          || strContains (lowerStr inp.current_request) "purchase") = false →
        asyncEntries (realBehaviorsAsync inp env
            (agentsNeeded inp.current_request inp.cart inp.liked_products))
          = (realBehaviors inp env
              (agentsNeeded inp.current_request inp.cart inp.liked_products)).map
            (fun b => entryOf b.1 b.2)) := by
  refine ⟨runPipelineAsync_ok_calls inp env hne hok, ?_, ?_, ?_⟩
  · rw [asyncEntries_length, realBehaviorsAsync_length, realBehaviors_length_agentsNeeded]
  · rw [asyncEntries_agents, realBehaviorsAsync_names]
  · intro hnp
    rw [asyncEntries_of_not_susp _ (realBehaviorsAsync_not_susp inp env _ hnp),
      realBehaviorsAsync_entries]

/-- Witness for C3 amended at the "buy shoes" run. -/
theorem claim_C3_amended_witness :
    ((agentsNeeded c3Input.current_request c3Input.cart c3Input.liked_products).isEmpty = false)
    ∧ (exceptOk (runPipelineAsync c3Input mockEnv) = true)
    ∧ callsOf (runPipelineAsync c3Input mockEnv)
        = some (orchestratorEntry
              (agentsNeeded c3Input.current_request c3Input.cart c3Input.liked_products)
            :: asyncEntries (realBehaviorsAsync c3Input mockEnv
                (agentsNeeded c3Input.current_request c3Input.cart c3Input.liked_products))) :=
  ⟨rfl, rfl, (claim_C3_amended c3Input mockEnv rfl rfl).1⟩

/-- C6 counterexample: a payment-agent failure raised after the task's
suspension at `asyncio.sleep` is recorded into `agent_calls[-1]` — here the
loyalty agent's entry, which ends `failed` carrying the payment error while
the payment agent's own entry stays `processing`: the failure is not captured
in the failing agent's own audit-log entry. (The isolation half does hold:
the sibling's result is still merged.) -/
theorem claim_C6_counterexample :
    callsOf (callAgentsNodeAsync
        [("Payment Agent", Except.error "All payment gateways failed", true),
         ("Loyalty Agent", Except.ok (.vDict [("points", .vNum 5)]), false)]
        [("agent_calls", .vList [])])
      = some [processingEntry "Payment Agent",
          .vDict [("agent", .vStr "Loyalty Agent"), ("status", .vStr "failed"),
            ("result", .vDict [("points", .vNum 5)]),
            ("error", .vStr "All payment gateways failed")]]
    ∧ lookOf (callAgentsNodeAsync
        [("Payment Agent", Except.error "All payment gateways failed", true),
         ("Loyalty Agent", Except.ok (.vDict [("points", .vNum 5)]), false)]
        [("agent_calls", .vList [])]) "points" = some (.vNum 5)
    ∧ vGetD (processingEntry "Payment Agent") "status" .vNone = .vStr "processing"
    ∧ Value.vStr "processing" ≠ Value.vStr "failed" := by
  refine ⟨rfl, rfl, rfl, ?_⟩
  intro hcontra
  injection hcontra with hcontra
  exact absurd hcontra (by decide)

/-- C6 (amended): when a dispatched agent's `_execute` raises, the wrapper
returns the empty dict, which is falsy and so skipped by the merge loop: the
run is not aborted and every sibling's result is merged exactly as if the
failing task were absent. The failure is captured in the failing agent's own
audit-log entry with status `failed` and the error text exactly when no task
of the run suspends; a suspended failing task instead writes its terminal
update onto whatever entry is last in the audit log. -/
theorem claim_C6_amended (pre post : List AsyncTask) (n e : String) (s : Bool)
    (st : StateDict) (cs : List Value)
    (h : sGet st "agent_calls" = some (.vList cs)) :
    resultOf (Except.error e) = Value.vDict []
    ∧ callAgentsNodeAsync (pre ++ (n, Except.error e, s) :: post) st
        = mergeAll (setCalls st (cs ++ asyncEntries (pre ++ (n, Except.error e, s) :: post)))
            (pre.map (fun b => resultOf b.2.1) ++ post.map (fun b => resultOf b.2.1))
    ∧ (s = false → (∀ b ∈ pre ++ post, b.2.2 = false) →
        asyncEntries (pre ++ (n, Except.error e, s) :: post)
          = pre.map (fun b => entryOf b.1 b.2.1)
            ++ entryOf n (Except.error e) :: post.map (fun b => entryOf b.1 b.2.1)) := by
  refine ⟨rfl, ?_, ?_⟩
  · rw [callAgentsNodeAsync_eq _ st cs h, List.map_append, List.map_cons]
    exact mergeAll_middle_falsy _ _ _ _ rfl
  · intro hs hns
    subst hs
    rw [asyncEntries_of_not_susp, List.map_append, List.map_cons]
    intro b hb
    rcases List.mem_append.mp hb with hb | hb
    · exact hns b (List.mem_append.mpr (Or.inl hb))
    · rcases List.mem_cons.mp hb with rfl | hb
      · rfl
      · exact hns b (List.mem_append.mpr (Or.inr hb))

/-- Witness for C6 amended: three dispatched tasks, the middle one raising,
none suspending. -/
theorem claim_C6_amended_witness :
    sGet [("agent_calls", Value.vList [])] "agent_calls" = some (.vList [])
    ∧ resultOf (Except.error "boom") = Value.vDict []
    ∧ callAgentsNodeAsync
        [("Inventory Agent", Except.ok (.vDict [("available", .vBool true)]), false),
         ("Fulfillment Agent", Except.error "boom", false),
         ("Support Agent", Except.ok (.vDict [("contact", .vStr "24/7")]), false)]
        [("agent_calls", Value.vList [])]
      = mergeAll
          (setCalls [("agent_calls", Value.vList [])]
            (asyncEntries
              [("Inventory Agent", Except.ok (.vDict [("available", .vBool true)]), false),
               ("Fulfillment Agent", Except.error "boom", false),
               ("Support Agent", Except.ok (.vDict [("contact", .vStr "24/7")]), false)]))
          [Value.vDict [("available", .vBool true)], Value.vDict [("contact", .vStr "24/7")]]
    ∧ asyncEntries
        [("Inventory Agent", Except.ok (.vDict [("available", .vBool true)]), false),
         ("Fulfillment Agent", Except.error "boom", false),
         ("Support Agent", Except.ok (.vDict [("contact", .vStr "24/7")]), false)]
      = [entryOf "Inventory Agent" (Except.ok (.vDict [("available", .vBool true)])),
         entryOf "Fulfillment Agent" (Except.error "boom"),
         entryOf "Support Agent" (Except.ok (.vDict [("contact", .vStr "24/7")]))] := by
  have hmain := claim_C6_amended
    [("Inventory Agent", Except.ok (.vDict [("available", .vBool true)]), false)]
    [("Support Agent", Except.ok (.vDict [("contact", .vStr "24/7")]), false)]
    "Fulfillment Agent" "boom" false [("agent_calls", Value.vList [])] [] rfl
  refine ⟨rfl, hmain.1, hmain.2.1, hmain.2.2 rfl ?_⟩
  intro b hb
  simp only [List.mem_append, List.mem_singleton] at hb
  rcases hb with rfl | rfl <;> rfl
